import Mathlib

/-!
# Jtag_proxy: scan-chain operations tunnelled to a remote debug bridge

Shallow embedding of `src/cables/jtag-proxy/jtag-proxy.cpp`.

* Bytes are natural numbers; a store into a `uint8_t` or `char` object keeps the value
  modulo 256.
* A `char*` argument is a window of memory read by offset, `Nat → Nat`; the null pointer
  is `none`.
* `std::vector<uint8_t>` is a list with checked element access: an index outside the
  vector has no defined result and is reported as `none`.
* The socket is an external collaborator: its behaviour is a pair of functions over a
  state type, and every call made on it is appended to an observation log.
* Shifts are the mathematical shifts on natural numbers; the line positions the callers
  pass are bit positions of a byte, where they agree with the shifts on `int`.
-/

namespace JtagProxy

/-! ## Declarations taken from headers that are not among the sources -/

/-- Constants of `debug_bridge/proxy.hpp` and the size of `proxy_req_t`. The header is
not among the sources, so the values are parameters of the development. -/
structure Proxy_consts where
  DEBUG_BRIDGE_JTAG_REQ : Nat
  DEBUG_BRIDGE_RESET_REQ : Nat
  DEBUG_BRIDGE_JTAG_TDI : Nat
  DEBUG_BRIDGE_JTAG_TMS : Nat
  DEBUG_BRIDGE_JTAG_TRST : Nat
  sizeof_req : Nat
deriving DecidableEq, Repr

/-- The three line positions are bit positions of one control byte and are pairwise
distinct. -/
def Proxy_consts.lines_ok (C : Proxy_consts) : Prop :=
  C.DEBUG_BRIDGE_JTAG_TDI < 8 ∧ C.DEBUG_BRIDGE_JTAG_TMS < 8 ∧ C.DEBUG_BRIDGE_JTAG_TRST < 8 ∧
  C.DEBUG_BRIDGE_JTAG_TDI ≠ C.DEBUG_BRIDGE_JTAG_TMS ∧
  C.DEBUG_BRIDGE_JTAG_TDI ≠ C.DEBUG_BRIDGE_JTAG_TRST ∧
  C.DEBUG_BRIDGE_JTAG_TMS ≠ C.DEBUG_BRIDGE_JTAG_TRST

instance (C : Proxy_consts) : Decidable C.lines_ok := by
  unfold Proxy_consts.lines_ok
  infer_instance

/-- A concrete choice of the constants, used to evaluate the definitions. -/
def sample_consts : Proxy_consts :=
  { DEBUG_BRIDGE_JTAG_REQ := 0, DEBUG_BRIDGE_RESET_REQ := 1,
    DEBUG_BRIDGE_JTAG_TDI := 0, DEBUG_BRIDGE_JTAG_TMS := 1, DEBUG_BRIDGE_JTAG_TRST := 2,
    sizeof_req := 12 }

/-- Argument of `cable_state_cb`. -/
inductive cable_state_t where
  | CABLE_CONNECTED
  | CABLE_DISCONNECTED
deriving DecidableEq, Repr

/-- The request header `proxy_req_t`: a type tag and the fields of the union member that
the code fills in. -/
inductive proxy_req_t where
  | jtag (type : Nat) (bits : Nat) (tdo : Bool)
  | reset (type : Nat) (active : Bool)
deriving DecidableEq, Repr

/-- What a `write_immediate` call is given: the header object or a run of bytes. -/
inductive Payload where
  | header (req : proxy_req_t)
  | data (bytes : List Nat)
deriving DecidableEq, Repr

/-- One call made on the socket, with the length asked for and the value returned. -/
inductive Io_event where
  | write (payload : Payload) (len : Nat) (ret : Int)
  | read (len : Nat) (ret : Int)
deriving DecidableEq, Repr

/-- Behaviour of `Tcp_socket`: `write_immediate` returns the number of bytes it took,
`read_immediate` returns its return value together with the bytes it delivered. -/
structure Tcp_socket (σ : Type) where
  write_immediate : σ → Payload → Nat → Int × σ
  read_immediate : σ → Nat → (Int × List Nat) × σ

/-! ## The object -/

/-- The members of `Jtag_proxy` that the claims are about, followed by three observation
logs: the invocations of `cable_state_cb` (each with the value `m_socket` had when the
callback ran), the calls of `m_tcp_client->connect`, and the calls made on the socket. -/
structure Jtag_proxy (σ : Type) where
  m_socket : Option σ
  m_server : String
  m_port : Int
  cb_log : List (cable_state_t × Option σ)
  connect_log : List (String × Int)
  io_log : List Io_event

/-- Lines 31-40. A null socket re-issues the asynchronous connect; a socket invokes the
callback. `m_socket` is assigned in neither branch. -/
def client_connected {σ : Type} (p : Jtag_proxy σ) (socket : Option σ) : Jtag_proxy σ :=
  match socket with
  | none => { p with connect_log := p.connect_log ++ [(p.m_server, p.m_port)] }
  | some _ => { p with cb_log := p.cb_log ++ [(cable_state_t.CABLE_CONNECTED, p.m_socket)] }

/-- Lines 42-47. -/
def client_disconnected {σ : Type} (p : Jtag_proxy σ) (_socket : Option σ) : Jtag_proxy σ :=
  let p1 : Jtag_proxy σ := { p with m_socket := none }
  { p1 with cb_log := p1.cb_log ++ [(cable_state_t.CABLE_DISCONNECTED, p1.m_socket)] }

/-! ## Building the control buffer (lines 87-111) -/

/-- Checked read of a vector element. -/
def vec_get (buffer : List Nat) (i : Nat) : Option Nat := buffer[i]?

/-- Checked store of a `uint8_t` vector element. -/
def vec_set (buffer : List Nat) (i v : Nat) : Option (List Nat) :=
  if i < buffer.length then some (buffer.set i (v % 256)) else none

/-- The variables the loop changes: `buffer`, `value`, and how far `outstream` has
advanced. -/
structure Loop_state where
  buffer : List Nat
  value : Nat
  outstream : Nat
deriving DecidableEq, Repr

/-- One iteration of the loop of lines 89-106. -/
def loop_body (C : Proxy_consts) (outstream : Option (Nat → Nat)) (bit : Nat)
    (st : Loop_state) (i : Nat) : Option Loop_state :=
  let fetched : Nat × Nat :=
    if i % 8 = 0 then
      match outstream with
      | some mem => (mem st.outstream % 256, st.outstream + 1)
      | none => (0, st.outstream)
    else (st.value, st.outstream)
  match vec_set st.buffer i ((fetched.1 &&& 1) <<< bit) with
  | none => none
  | some b1 =>
    let forced : Option (List Nat) :=
      if bit ≠ C.DEBUG_BRIDGE_JTAG_TRST then
        match vec_get b1 i with
        | none => none
        | some x => vec_set b1 i (x ||| (1 <<< C.DEBUG_BRIDGE_JTAG_TRST))
      else some b1
    match forced with
    | none => none
    | some b2 => some { buffer := b2, value := fetched.1 >>> 1, outstream := fetched.2 }

/-- The state after the first `k` iterations of the loop, for a vector of `n_bits`
bytes. -/
def loop_upto (C : Proxy_consts) (outstream : Option (Nat → Nat)) (bit n_bits k : Nat) :
    Option Loop_state :=
  (List.range k).foldlM (loop_body C outstream bit)
    { buffer := List.replicate n_bits 0, value := 0, outstream := 0 }

/-- Lines 87-111: the vector, the loop, and the store at `n_bits-1` when `last` is set.
`n_bits` is unsigned, so `n_bits-1` wraps around at zero. -/
def proxy_stream_buffer (C : Proxy_consts) (outstream : Option (Nat → Nat))
    (n_bits : Nat) (last : Bool) (bit : Nat) : Option (List Nat) :=
  match loop_upto C outstream bit n_bits n_bits with
  | none => none
  | some st =>
    if last then
      let idx := (n_bits + 4294967296 - 1) % 4294967296
      match vec_get st.buffer idx with
      | none => none
      | some x => vec_set st.buffer idx (x ||| (1 <<< C.DEBUG_BRIDGE_JTAG_TMS))
    else some st.buffer

/-! ## The exchange -/

/-- Library `memset` on a window of memory. -/
def memset (mem : Nat → Nat) (c n : Nat) : Nat → Nat :=
  fun k => if k < n then c else mem k

/-- The bytes a read delivered, placed at the start of a window of memory. -/
def store_bytes (mem : Nat → Nat) (data : List Nat) : Nat → Nat :=
  fun k => if h : k < data.length then data[k] else mem k

/-- What a scan call leaves behind: its return value, the object, and the memory behind
`instream`. -/
structure Stream_result (σ : Type) where
  ret : Bool
  proxy : Jtag_proxy σ
  instream : Option (Nat → Nat)

/-- Lines 77-122. The outer `none` is an access outside the vector. -/
def proxy_stream {σ : Type} (C : Proxy_consts) (T : Tcp_socket σ) (p : Jtag_proxy σ)
    (instream outstream : Option (Nat → Nat)) (n_bits : Nat) (last : Bool) (bit : Nat) :
    Option (Stream_result σ) :=
  match p.m_socket with
  | none => some { ret := false, proxy := p, instream := instream }
  | some s =>
    let req := proxy_req_t.jtag C.DEBUG_BRIDGE_JTAG_REQ n_bits instream.isSome
    if n_bits ≥ 65536 then some { ret := false, proxy := p, instream := instream }
    else
      match proxy_stream_buffer C outstream n_bits last bit with
      | none => none
      | some buffer =>
        let w1 := T.write_immediate s (Payload.header req) C.sizeof_req
        let p1 : Jtag_proxy σ :=
          { p with m_socket := some w1.2,
                   io_log := p.io_log ++ [Io_event.write (Payload.header req) C.sizeof_req w1.1] }
        if w1.1 ≠ (C.sizeof_req : Int) then
          some { ret := false, proxy := p1, instream := instream }
        else
          let w2 := T.write_immediate w1.2 (Payload.data buffer) n_bits
          let p2 : Jtag_proxy σ :=
            { p1 with m_socket := some w2.2,
                      io_log := p1.io_log ++ [Io_event.write (Payload.data buffer) n_bits w2.1] }
          if w2.1 ≠ (n_bits : Int) then
            some { ret := false, proxy := p2, instream := instream }
          else
            match instream with
            | none => some { ret := true, proxy := p2, instream := none }
            | some mem =>
              let len := (n_bits + 7) / 8
              let cleared := memset mem 0 len
              let r := T.read_immediate w2.2 len
              let p3 : Jtag_proxy σ :=
                { p2 with m_socket := some r.2,
                          io_log := p2.io_log ++ [Io_event.read len r.1.1] }
              let filled := store_bytes cleared (r.1.2.take len)
              some { ret := decide (r.1.1 = (len : Int)), proxy := p3, instream := some filled }

/-- Lines 124-127. -/
def stream_inout {σ : Type} (C : Proxy_consts) (T : Tcp_socket σ) (p : Jtag_proxy σ)
    (instream outstream : Option (Nat → Nat)) (n_bits : Nat) (last : Bool) :
    Option (Stream_result σ) :=
  proxy_stream C T p instream outstream n_bits last C.DEBUG_BRIDGE_JTAG_TDI

/-- The one-byte object behind `&outbit`. -/
def char_object (c : Nat) : Nat → Nat := fun k => if k = 0 then c else 0

/-- Lines 72-75. -/
def bit_inout {σ : Type} (C : Proxy_consts) (T : Tcp_socket σ) (p : Jtag_proxy σ)
    (inbit : Option (Nat → Nat)) (outbit : Nat) (last : Bool) : Option (Stream_result σ) :=
  stream_inout C T p inbit (some (char_object outbit)) 1 last

/-- The bytes of an `int` object seen through a `char*`, least significant byte first. -/
def int_object (v : Nat) : Nat → Nat := fun k => (v >>> (8 * k)) % 256

/-- Lines 129-133. -/
def jtag_reset {σ : Type} (C : Proxy_consts) (T : Tcp_socket σ) (p : Jtag_proxy σ)
    (active : Bool) : Option (Stream_result σ) :=
  let value : Nat := if active then 0 else 1
  proxy_stream C T p none (some (int_object value)) 1 false C.DEBUG_BRIDGE_JTAG_TRST

/-- Lines 140-148. -/
def chip_reset {σ : Type} (C : Proxy_consts) (T : Tcp_socket σ) (p : Jtag_proxy σ)
    (active : Bool) : Bool × Jtag_proxy σ :=
  match p.m_socket with
  | none => (false, p)
  | some s =>
    let req := proxy_req_t.reset C.DEBUG_BRIDGE_RESET_REQ active
    let w := T.write_immediate s (Payload.header req) C.sizeof_req
    let p1 : Jtag_proxy σ :=
      { p with m_socket := some w.2,
               io_log := p.io_log ++ [Io_event.write (Payload.header req) C.sizeof_req w.1] }
    if w.1 ≠ (C.sizeof_req : Int) then (false, p1) else (true, p1)

/-! ## Closed forms used by the proofs -/

/-- The byte the loop loads from `outstream` at offset `j`; 0 for a null pointer. -/
def fetch_byte (outstream : Option (Nat → Nat)) (j : Nat) : Nat :=
  match outstream with
  | none => 0
  | some mem => mem j % 256

/-- Bit `i` of the drive data: bit `i mod 8` of drive byte `i div 8`, and 0 when there is
no drive buffer. -/
def drive_bit (outstream : Option (Nat → Nat)) (i : Nat) : Nat :=
  match outstream with
  | none => 0
  | some mem => if (mem (i / 8)).testBit (i % 8) then 1 else 0

/-- The byte the loop leaves at index `i`. -/
def loop_byte (C : Proxy_consts) (outstream : Option (Nat → Nat)) (bit i : Nat) : Nat :=
  ((drive_bit outstream i <<< bit) |||
    (if bit ≠ C.DEBUG_BRIDGE_JTAG_TRST then 1 <<< C.DEBUG_BRIDGE_JTAG_TRST else 0)) % 256

/-- The loop variables after `k` iterations, in closed form. -/
def loop_state_after (C : Proxy_consts) (outstream : Option (Nat → Nat)) (bit n_bits k : Nat) :
    Loop_state :=
  { buffer := (List.range n_bits).map (fun i => if i < k then loop_byte C outstream bit i else 0),
    value := if k = 0 then 0 else fetch_byte outstream ((k - 1) / 8) >>> ((k - 1) % 8 + 1),
    outstream := match outstream with
      | none => 0
      | some _ => (k + 7) / 8 }

/-- Reference definition of control byte `i` of an `n_bits`-cycle scan, following the
specification: the drive bit at the selected line, the TAP-reset bit unless the selected
line is the TAP-reset line, and the TMS bit on the last cycle of a terminating scan. -/
def control_byte_reference (C : Proxy_consts) (outstream : Option (Nat → Nat))
    (n_bits : Nat) (last : Bool) (bit i : Nat) : Nat :=
  (drive_bit outstream i <<< bit) |||
    (if bit ≠ C.DEBUG_BRIDGE_JTAG_TRST then 1 <<< C.DEBUG_BRIDGE_JTAG_TRST else 0) |||
    (if last = true ∧ i = n_bits - 1 then 1 <<< C.DEBUG_BRIDGE_JTAG_TMS else 0)

/-! ## A loopback bridge -/

/-- The level of the primary data line in control byte `i`; low beyond the last byte. -/
def line_bit (C : Proxy_consts) (ctrl : List Nat) (i : Nat) : Bool :=
  (ctrl.getD i 0).testBit C.DEBUG_BRIDGE_JTAG_TDI

/-- The number whose bits `0 .. m-1` are `f 0 .. f (m-1)`. -/
def pack_bits (f : Nat → Bool) : Nat → Nat
  | 0 => 0
  | m + 1 => pack_bits f m + (if f m then 2 ^ m else 0)

/-- The answer of a loopback bridge to the control bytes `ctrl`: the data-line bit of
control byte `i` sits at bit `i mod 8` of response byte `i div 8`. -/
def loopback_response (C : Proxy_consts) (ctrl : List Nat) (len : Nat) : List Nat :=
  (List.range len).map (fun k => pack_bits (fun j => line_bit C ctrl (8 * k + j)) 8)

/-- Every write is taken in full. -/
def accepts_all_writes {σ : Type} (T : Tcp_socket σ) : Prop :=
  ∀ (s : σ) (payload : Payload) (len : Nat), (T.write_immediate s payload len).1 = (len : Int)

/-- After a header and a control buffer have been written, a read of `len` bytes returns
`len` and delivers the loopback answer to that control buffer. -/
def echoes_drive_line {σ : Type} (C : Proxy_consts) (T : Tcp_socket σ) : Prop :=
  ∀ (s : σ) (req : proxy_req_t) (ctrl : List Nat) (n len : Nat),
    (T.read_immediate
        (T.write_immediate (T.write_immediate s (Payload.header req) C.sizeof_req).2
          (Payload.data ctrl) n).2 len).1 =
      ((len : Int), loopback_response C ctrl len)

/-- A loopback bridge whose state is the control buffer it received last. -/
def loopback (C : Proxy_consts) : Tcp_socket (List Nat) where
  write_immediate := fun s payload len =>
    match payload with
    | Payload.header _ => ((len : Int), s)
    | Payload.data bytes => ((len : Int), bytes)
  read_immediate := fun s len => (((len : Int), loopback_response C s len), s)

/-- A window of memory holding the bytes of a list, and 0 after them. -/
def mem_of (bytes : List Nat) : Nat → Nat := fun k => bytes.getD k 0

/-- An object with the given socket pointer and empty observation logs. -/
def sample_proxy (socket : Option (List Nat)) : Jtag_proxy (List Nat) :=
  { m_socket := socket, m_server := "localhost", m_port := 9999,
    cb_log := [], connect_log := [], io_log := [] }

/-! ## Sequences of calls -/

/-- A call of one of the operations that reach the transport. -/
inductive Scan_call where
  | bit_inout (inbit : Option (Nat → Nat)) (outbit : Nat) (last : Bool)
  | stream_inout (instream outstream : Option (Nat → Nat)) (n_bits : Nat) (last : Bool)
  | proxy_stream (instream outstream : Option (Nat → Nat)) (n_bits : Nat) (last : Bool)
      (bit : Nat)
  | jtag_reset (active : Bool)
  | chip_reset (active : Bool)

/-- The return value of a call and the object after it. -/
def run_call {σ : Type} (C : Proxy_consts) (T : Tcp_socket σ) (p : Jtag_proxy σ) :
    Scan_call → Option (Bool × Jtag_proxy σ)
  | Scan_call.bit_inout inbit outbit last =>
    (bit_inout C T p inbit outbit last).map (fun r => (r.ret, r.proxy))
  | Scan_call.stream_inout instream outstream n_bits last =>
    (stream_inout C T p instream outstream n_bits last).map (fun r => (r.ret, r.proxy))
  | Scan_call.proxy_stream instream outstream n_bits last bit =>
    (proxy_stream C T p instream outstream n_bits last bit).map (fun r => (r.ret, r.proxy))
  | Scan_call.jtag_reset active =>
    (jtag_reset C T p active).map (fun r => (r.ret, r.proxy))
  | Scan_call.chip_reset active => some (chip_reset C T p active)

/-- The return values of a sequence of calls, made one after the other, and the object
after the last one. -/
def run_calls {σ : Type} (C : Proxy_consts) (T : Tcp_socket σ) (p : Jtag_proxy σ) :
    List Scan_call → Option (List Bool × Jtag_proxy σ)
  | [] => some ([], p)
  | c :: rest =>
    match run_call C T p c with
    | none => none
    | some (r, p1) =>
      match run_calls C T p1 rest with
      | none => none
      | some (rs, p2) => some (r :: rs, p2)

/-- Whether an observed socket call is a read. -/
def Io_event.is_read : Io_event → Bool
  | Io_event.read _ _ => true
  | Io_event.write _ _ _ => false

/-! ## Connection setup and flush -/

/-- The "jtag-proxy" section of the configuration: its "port" and "host" entries, each
present or not. -/
structure Proxy_config where
  port : Option Int
  host : Option String

/-- The configuration handed to `connect`, as far as `connect` looks at it: the
"jtag-proxy" section, present or not. -/
structure Config where
  jtag_proxy : Option Proxy_config

/-- Behaviour of `Tcp_client::connect_blocking`: host, port and timeout give a socket or
the null pointer. -/
structure Tcp_client (σ : Type) where
  connect_blocking : String → Int → Nat → Option σ

/-- What `connect` leaves behind: its return value, the object, and the calls of
`connect_blocking` it made (host, port, timeout). -/
structure Connect_result (σ : Type) where
  ret : Bool
  proxy : Jtag_proxy σ
  opened : List (String × Int × Nat)

/-- Lines 49-70. -/
def connect {σ : Type} (K : Tcp_client σ) (p : Jtag_proxy σ) (config : Config) :
    Connect_result σ :=
  match config.jtag_proxy with
  | none => { ret := false, proxy := p, opened := [] }
  | some proxy_config =>
    match proxy_config.port with
    | none => { ret := false, proxy := p, opened := [] }
    | some port =>
      let m_server : String :=
        match proxy_config.host with
        | none => "localhost"
        | some host => host
      let socket := K.connect_blocking m_server port 10000000
      { ret := socket.isSome,
        proxy := { p with m_port := port, m_server := m_server, m_socket := socket },
        opened := [(m_server, port, 10000000)] }

/-- Lines 135-138: `true` returned as an `int`. -/
def flush {σ : Type} (p : Jtag_proxy σ) : Int × Jtag_proxy σ := (1, p)

/-! ## Observations on a scan -/

/-- The header of lines 80-83. -/
def scan_header (C : Proxy_consts) (n_bits : Nat) (instream : Option (Nat → Nat)) : Payload :=
  Payload.header (proxy_req_t.jtag C.DEBUG_BRIDGE_JTAG_REQ n_bits instream.isSome)

/-- The offset of `outstream` that iteration `i` reads, when it reads one (lines 91-97). -/
def loop_read_offset (outstream : Option (Nat → Nat)) (st : Loop_state) (i : Nat) :
    Option Nat :=
  if i % 8 = 0 then
    match outstream with
    | some _ => some st.outstream
    | none => none
  else none

/-- The offsets of `outstream` read by the first `k` iterations of the loop, in order. -/
def loop_reads (C : Proxy_consts) (outstream : Option (Nat → Nat)) (bit n_bits k : Nat) :
    List Nat :=
  (List.range k).filterMap
    (fun i => (loop_upto C outstream bit n_bits i).bind
      (fun st => loop_read_offset outstream st i))

/-- The payloads of the writes among a run of socket calls, in order. -/
def written_payloads : List Io_event → List Payload
  | [] => []
  | Io_event.write payload _ _ :: rest => payload :: written_payloads rest
  | Io_event.read _ _ :: rest => written_payloads rest

/-- The lengths asked for by the reads among a run of socket calls, in order. -/
def read_lengths : List Io_event → List Nat
  | [] => []
  | Io_event.write _ _ _ :: rest => read_lengths rest
  | Io_event.read len _ :: rest => len :: read_lengths rest

/-- A transport whose writes take one byte less than asked for. -/
def short_writer : Tcp_socket (List Nat) where
  write_immediate := fun s _ len => ((len : Int) - 1, s)
  read_immediate := fun s len => (((len : Int), List.replicate len 0), s)

/-- A transport that takes the header in full and one byte less of anything else. -/
def short_data_writer : Tcp_socket (List Nat) where
  write_immediate := fun s payload len =>
    match payload with
    | Payload.header _ => ((len : Int), s)
    | Payload.data _ => ((len : Int) - 1, s)
  read_immediate := fun s len => (((len : Int), List.replicate len 0), s)

/-- A client whose blocking open succeeds on port 9999 and times out on any other. -/
def sample_client : Tcp_client (List Nat) where
  connect_blocking := fun _ port _ => if port = 9999 then some [] else none

/-! ## The loop in closed form -/

theorem or_mod_256 (a b : Nat) : (a % 256 ||| b) % 256 = (a ||| b) % 256 := by
  apply Nat.eq_of_testBit_eq
  intro i
  have h : (256 : Nat) = 2 ^ 8 := by norm_num
  rw [h]
  simp only [Nat.testBit_mod_two_pow, Nat.testBit_or]
  cases decide (i < 8) <;> simp

theorem fetch_shift_and_one (outstream : Option (Nat → Nat)) (k : Nat) :
    (fetch_byte outstream (k / 8) >>> (k % 8)) &&& 1 = drive_bit outstream k := by
  cases outstream with
  | none => simp [fetch_byte, drive_bit]
  | some mem =>
    have h8 : k % 8 < 8 := Nat.mod_lt _ (by norm_num)
    have h : (256 : Nat) = 2 ^ 8 := by norm_num
    simp only [fetch_byte, drive_bit, Nat.and_one_is_mod]
    have ht : (mem (k / 8) % 256).testBit (k % 8) = (mem (k / 8)).testBit (k % 8) := by
      rw [h, Nat.testBit_mod_two_pow]; simp [h8]
    rw [← ht, Nat.testBit_to_div_mod, Nat.shiftRight_eq_div_pow]
    by_cases hb : mem (k / 8) % 256 / 2 ^ (k % 8) % 2 = 1
    · simp [hb]
    · have : mem (k / 8) % 256 / 2 ^ (k % 8) % 2 = 0 := by omega
      simp [this]

theorem set_map_range (n k v : Nat) (f g : Nat → Nat)
    (hg : ∀ i, g i = if i = k then v else f i) :
    ((List.range n).map f).set k v = (List.range n).map g := by
  apply List.ext_getElem
  · simp
  · intro i h1 h2
    simp only [List.getElem_set, List.getElem_map, List.getElem_range, hg]
    by_cases hik : k = i
    · subst hik; simp
    · have : ¬ i = k := fun h => hik h.symm
      simp [hik, this]

theorem loop_upto_succ (C : Proxy_consts) (outstream : Option (Nat → Nat)) (bit n_bits k : Nat) :
    loop_upto C outstream bit n_bits (k + 1) =
      (loop_upto C outstream bit n_bits k).bind (fun st => loop_body C outstream bit st k) := by
  unfold loop_upto
  rw [List.range_succ, List.foldlM_append]
  cases h : List.foldlM (loop_body C outstream bit)
      ({ buffer := List.replicate n_bits 0, value := 0, outstream := 0 } : Loop_state)
      (List.range k) with
  | none => rfl
  | some st =>
    show (List.foldlM (loop_body C outstream bit) st [k]) = _
    simp [List.foldlM]

theorem loop_body_after (C : Proxy_consts) (outstream : Option (Nat → Nat)) (bit n_bits k : Nat)
    (hk : k < n_bits) :
    loop_body C outstream bit (loop_state_after C outstream bit n_bits k) k =
      some (loop_state_after C outstream bit n_bits (k + 1)) := by
  -- the byte consumed in this iteration
  have hval : (if k % 8 = 0 then
        (match outstream with
          | some mem => (mem (loop_state_after C outstream bit n_bits k).outstream % 256,
              (loop_state_after C outstream bit n_bits k).outstream + 1)
          | none => (0, (loop_state_after C outstream bit n_bits k).outstream))
      else ((loop_state_after C outstream bit n_bits k).value,
        (loop_state_after C outstream bit n_bits k).outstream)) =
      (fetch_byte outstream (k / 8) >>> (k % 8),
        (loop_state_after C outstream bit n_bits (k + 1)).outstream) := by
    by_cases h0 : k % 8 = 0
    · cases outstream with
      | none => simp [h0, loop_state_after, fetch_byte]
      | some mem =>
        have e1 : (k + 7) / 8 = k / 8 := by omega
        have e2 : (k + 1 + 7) / 8 = k / 8 + 1 := by omega
        simp [h0, loop_state_after, fetch_byte, e1, e2]
    · have hk0 : k ≠ 0 := by intro h; apply h0; simp [h]
      have e1 : (k - 1) / 8 = k / 8 := by omega
      have e2 : (k - 1) % 8 + 1 = k % 8 := by omega
      cases outstream with
      | none => simp [h0, loop_state_after, fetch_byte, hk0]
      | some mem =>
        have e3 : (k + 1 + 7) / 8 = (k + 7) / 8 := by omega
        simp [h0, loop_state_after, fetch_byte, hk0, e1, e2, e3]
  unfold loop_body
  simp only [hval]
  rw [fetch_shift_and_one]
  have hlen : k < (loop_state_after C outstream bit n_bits k).buffer.length := by
    simp [loop_state_after, hk]
  have hset1 : vec_set (loop_state_after C outstream bit n_bits k).buffer k
      (drive_bit outstream k <<< bit) =
      some ((List.range n_bits).map (fun i =>
        if i = k then (drive_bit outstream k <<< bit) % 256
        else if i < k then loop_byte C outstream bit i else 0)) := by
    unfold vec_set
    rw [if_pos hlen]
    congr 1
    exact set_map_range n_bits k _ _ _ (fun i => rfl)
  rw [hset1]
  have hvalue : (fetch_byte outstream (k / 8) >>> (k % 8)) >>> 1 =
      (loop_state_after C outstream bit n_bits (k + 1)).value := by
    simp [loop_state_after, Nat.shiftRight_add]
  have hstate : ∀ b2 : List Nat,
      b2 = (List.range n_bits).map
        (fun i => if i < k + 1 then loop_byte C outstream bit i else 0) →
      ({ buffer := b2, value := (fetch_byte outstream (k / 8) >>> (k % 8)) >>> 1,
         outstream := (loop_state_after C outstream bit n_bits (k + 1)).outstream } :
        Loop_state) = loop_state_after C outstream bit n_bits (k + 1) := by
    intro b2 hb2
    rw [hvalue, hb2]
    rfl
  by_cases hb : bit = C.DEBUG_BRIDGE_JTAG_TRST
  · simp only [hb, ne_eq, not_true_eq_false, if_false]
    rw [← hb]
    congr 1
    apply hstate
    apply List.map_congr_left
    intro i _
    by_cases hik : i = k
    · subst hik
      simp [loop_byte, hb]
    · have : i < k + 1 ↔ i < k := by omega
      simp [hik, this]
  · simp only [ne_eq, hb, not_false_eq_true, if_true]
    have hget : vec_get ((List.range n_bits).map (fun i =>
        if i = k then (drive_bit outstream k <<< bit) % 256
        else if i < k then loop_byte C outstream bit i else 0)) k =
        some ((drive_bit outstream k <<< bit) % 256) := by
      simp [vec_get, hk]
    rw [hget]
    have hset2 : vec_set ((List.range n_bits).map (fun i =>
        if i = k then (drive_bit outstream k <<< bit) % 256
        else if i < k then loop_byte C outstream bit i else 0)) k
        ((drive_bit outstream k <<< bit) % 256 ||| 1 <<< C.DEBUG_BRIDGE_JTAG_TRST) =
        some ((List.range n_bits).map
          (fun i => if i < k + 1 then loop_byte C outstream bit i else 0)) := by
      unfold vec_set
      rw [if_pos (by simp [hk])]
      congr 1
      apply set_map_range n_bits k _ _ _
      intro i
      by_cases hik : i = k
      · subst hik
        simp [loop_byte, hb, or_mod_256]
      · have : i < k + 1 ↔ i < k := by omega
        simp [hik, this]
    simp only [hset2]
    congr 1

theorem loop_upto_eq (C : Proxy_consts) (outstream : Option (Nat → Nat)) (bit n_bits : Nat) :
    ∀ k, k ≤ n_bits →
      loop_upto C outstream bit n_bits k = some (loop_state_after C outstream bit n_bits k) := by
  intro k
  induction k with
  | zero =>
    intro _
    have hbuf : List.replicate n_bits 0 = (List.range n_bits).map (fun _ => (0 : Nat)) := by
      apply List.ext_getElem <;> simp
    have hinit : loop_upto C outstream bit n_bits 0 =
        some { buffer := List.replicate n_bits 0, value := 0, outstream := 0 } := rfl
    rw [hinit, hbuf]
    cases outstream <;> simp [loop_state_after]
  | succ k ih =>
    intro hk
    rw [loop_upto_succ, ih (by omega)]
    exact loop_body_after C outstream bit n_bits k (by omega)

theorem proxy_stream_buffer_eq (C : Proxy_consts) (outstream : Option (Nat → Nat))
    (n_bits : Nat) (last : Bool) (bit : Nat) (hn : n_bits < 4294967296)
    (h : 1 ≤ n_bits ∨ last = false) :
    proxy_stream_buffer C outstream n_bits last bit =
      some ((List.range n_bits).map
        (fun i => control_byte_reference C outstream n_bits last bit i % 256)) := by
  unfold proxy_stream_buffer
  rw [loop_upto_eq C outstream bit n_bits n_bits (le_refl _)]
  have hbuf : (loop_state_after C outstream bit n_bits n_bits).buffer =
      (List.range n_bits).map (fun i => loop_byte C outstream bit i) := by
    simp only [loop_state_after]
    apply List.map_congr_left
    intro i hi
    simp [List.mem_range.mp hi]
  simp only [hbuf]
  cases last with
  | false =>
    simp only [Bool.false_eq_true, if_false]
    congr 1
    apply List.map_congr_left
    intro i _
    simp [control_byte_reference, loop_byte]
  | true =>
    have h1 : 1 ≤ n_bits := by
      rcases h with h | h
      · exact h
      · cases h
    have hidx : (n_bits + 4294967296 - 1) % 4294967296 = n_bits - 1 := by omega
    have hlt : n_bits - 1 < n_bits := by omega
    simp only [if_true, hidx]
    have hget : vec_get ((List.range n_bits).map (fun i => loop_byte C outstream bit i))
        (n_bits - 1) = some (loop_byte C outstream bit (n_bits - 1)) := by
      simp [vec_get, hlt]
    simp only [hget]
    unfold vec_set
    rw [if_pos (by simp [hlt])]
    refine congrArg some ?_
    apply set_map_range n_bits (n_bits - 1) _ _ _
    intro i
    by_cases hi : i = n_bits - 1
    · simp only [hi, if_true, control_byte_reference, loop_byte, and_self]
      rw [or_mod_256]
    · simp [hi, control_byte_reference, loop_byte]

theorem proxy_stream_buffer_zero_last (C : Proxy_consts) (outstream : Option (Nat → Nat))
    (bit : Nat) : proxy_stream_buffer C outstream 0 true bit = none := by
  unfold proxy_stream_buffer
  rw [loop_upto_eq C outstream bit 0 0 (le_refl _)]
  simp [loop_state_after, vec_get]

/-! ## Single bits of a control byte -/

theorem drive_bit_cases (outstream : Option (Nat → Nat)) (i : Nat) :
    drive_bit outstream i = 0 ∨ drive_bit outstream i = 1 := by
  cases outstream with
  | none => left; rfl
  | some mem =>
    simp only [drive_bit]
    split
    · right; rfl
    · left; rfl

theorem testBit_drive_bit_shift (outstream : Option (Nat → Nat)) (i bit q : Nat) :
    (drive_bit outstream i <<< bit).testBit q = decide (q = bit ∧ drive_bit outstream i = 1) := by
  rw [Nat.testBit_shiftLeft]
  rcases drive_bit_cases outstream i with h | h
  · simp [h]
  · rw [h]
    by_cases hq : q = bit
    · subst hq; simp
    · by_cases hge : q ≥ bit
      · have hpos : q - bit ≠ 0 := by omega
        have hone : Nat.testBit 1 (q - bit) = false := by
          cases hb : Nat.testBit 1 (q - bit) with
          | false => rfl
          | true => exact absurd (Nat.testBit_one_eq_true_iff_self_eq_zero.mp hb) hpos
        simp [hq, hge, hone]
      · simp [hq, hge]

theorem testBit_one_shift (a q : Nat) : (1 <<< a).testBit q = decide (q = a) := by
  rw [Nat.one_shiftLeft, Nat.testBit_two_pow]
  by_cases h : a = q
  · subst h; simp
  · have : ¬ q = a := fun e => h e.symm
    simp [h, this]

theorem control_byte_testBit (C : Proxy_consts) (outstream : Option (Nat → Nat))
    (n_bits : Nat) (last : Bool) (bit i q : Nat) (hq : q < 8) :
    (control_byte_reference C outstream n_bits last bit i % 256).testBit q =
      (decide (q = bit ∧ drive_bit outstream i = 1) ||
        decide (bit ≠ C.DEBUG_BRIDGE_JTAG_TRST ∧ q = C.DEBUG_BRIDGE_JTAG_TRST) ||
        decide (last = true ∧ i = n_bits - 1 ∧ q = C.DEBUG_BRIDGE_JTAG_TMS)) := by
  have h256 : (256 : Nat) = 2 ^ 8 := by norm_num
  rw [h256, Nat.testBit_mod_two_pow]
  simp only [hq, decide_True, Bool.true_and, control_byte_reference, Nat.testBit_or,
    testBit_drive_bit_shift]
  congr 1
  · congr 1
    by_cases hb : bit = C.DEBUG_BRIDGE_JTAG_TRST
    · simp [hb]
    · rw [if_pos hb, testBit_one_shift]
      simp [hb]
  · by_cases hl : last = true ∧ i = n_bits - 1
    · rw [if_pos hl, testBit_one_shift]
      simp [hl]
    · rw [if_neg hl]
      have : ¬ (last = true ∧ i = n_bits - 1 ∧ q = C.DEBUG_BRIDGE_JTAG_TMS) :=
        fun h => hl ⟨h.1, h.2.1⟩
      simp [this]

theorem getD_map_range (n i : Nat) (f : Nat → Nat) (hi : i < n) :
    ((List.range n).map f).getD i 0 = f i := by
  simp [List.getD, hi]

theorem pack_bits_lt (f : Nat → Bool) (m : Nat) : pack_bits f m < 2 ^ m := by
  induction m with
  | zero => simp [pack_bits]
  | succ m ih =>
    simp only [pack_bits]
    have : 2 ^ (m + 1) = 2 ^ m + 2 ^ m := by ring
    split <;> omega

theorem testBit_pack_bits (f : Nat → Bool) (m j : Nat) :
    (pack_bits f m).testBit j = (decide (j < m) && f j) := by
  induction m with
  | zero => simp [pack_bits]
  | succ m ih =>
    have hlt := pack_bits_lt f m
    simp only [pack_bits]
    by_cases hf : f m = true
    · rw [if_pos hf, Nat.add_comm]
      rcases Nat.lt_trichotomy j m with hj | hj | hj
      · rw [Nat.testBit_two_pow_add_gt hj, ih]
        have : j < m + 1 := by omega
        simp [hj, this]
      · subst hj
        rw [Nat.testBit_two_pow_add_eq, Nat.testBit_lt_two_pow hlt]
        simp [hf]
      · have hpow : 2 ^ m + pack_bits f m < 2 ^ j := by
          have h1 : 2 ^ (m + 1) ≤ 2 ^ j := Nat.pow_le_pow_right (by norm_num) hj
          have h2 : 2 ^ (m + 1) = 2 ^ m + 2 ^ m := by ring
          omega
        rw [Nat.testBit_lt_two_pow hpow]
        have : ¬ j < m + 1 := by omega
        simp [this]
    · rw [if_neg hf, Nat.add_zero, ih]
      have hf2 : f m = false := by simpa using hf
      by_cases hj : j < m
      · have : j < m + 1 := by omega
        simp [hj, this]
      · by_cases hjm : j = m
        · subst hjm; simp [hf2]
        · have : ¬ j < m + 1 := by omega
          simp [hj, this]

/-! ## Calls that fail before the transport is touched -/

theorem proxy_stream_not_connected {σ : Type} (C : Proxy_consts) (T : Tcp_socket σ)
    (p : Jtag_proxy σ) (instream outstream : Option (Nat → Nat)) (n_bits : Nat) (last : Bool)
    (bit : Nat) (h : p.m_socket = none) :
    proxy_stream C T p instream outstream n_bits last bit =
      some { ret := false, proxy := p, instream := instream } := by
  unfold proxy_stream
  rw [h]

theorem run_call_not_connected {σ : Type} (C : Proxy_consts) (T : Tcp_socket σ)
    (p : Jtag_proxy σ) (h : p.m_socket = none) (c : Scan_call) :
    run_call C T p c = some (false, p) := by
  cases c with
  | bit_inout inbit outbit last =>
    simp [run_call, bit_inout, stream_inout, proxy_stream_not_connected C T p _ _ _ _ _ h]
  | stream_inout instream outstream n_bits last =>
    simp [run_call, stream_inout, proxy_stream_not_connected C T p _ _ _ _ _ h]
  | proxy_stream instream outstream n_bits last bit =>
    simp [run_call, proxy_stream_not_connected C T p _ _ _ _ _ h]
  | jtag_reset active =>
    simp [run_call, jtag_reset, proxy_stream_not_connected C T p _ _ _ _ _ h]
  | chip_reset active =>
    simp [run_call, chip_reset, h]

theorem run_calls_not_connected {σ : Type} (C : Proxy_consts) (T : Tcp_socket σ)
    (p : Jtag_proxy σ) (h : p.m_socket = none) (calls : List Scan_call) :
    run_calls C T p calls = some (calls.map (fun _ => false), p) := by
  induction calls with
  | nil => rfl
  | cons c rest ih =>
    simp [run_calls, run_call_not_connected C T p h c, ih]

/-- C2. A scan of 65536 bits or more on a connected transport returns failure and leaves
the object, its socket and the log of socket calls as they were: nothing is written and
nothing is read, whatever the buffers, the flag and the control line. -/
theorem too_many_bits_no_transport_call {σ : Type} (C : Proxy_consts) (T : Tcp_socket σ)
    (p : Jtag_proxy σ) (s : σ) (instream outstream : Option (Nat → Nat)) (n_bits : Nat)
    (last : Bool) (bit : Nat) (hs : p.m_socket = some s) (hn : 65536 ≤ n_bits) :
    proxy_stream C T p instream outstream n_bits last bit =
      some { ret := false, proxy := p, instream := instream } := by
  unfold proxy_stream
  rw [hs]
  simp only [ge_iff_le, hn, if_true]

theorem too_many_bits_no_transport_call_witness :
    (sample_proxy (some [])).m_socket = some [] ∧ 65536 ≤ 65536 ∧
    proxy_stream sample_consts (loopback sample_consts) (sample_proxy (some []))
        (some (mem_of [7])) (some (mem_of [5])) 65536 true 0 =
      some { ret := false, proxy := sample_proxy (some []), instream := some (mem_of [7]) } :=
  ⟨rfl, le_refl _, too_many_bits_no_transport_call sample_consts (loopback sample_consts)
    (sample_proxy (some [])) [] (some (mem_of [7])) (some (mem_of [5])) 65536 true 0 rfl
    (le_refl _)⟩

/-- C8. With no transport handle stored, `bit_inout`, `stream_inout`, `jtag_reset`,
`proxy_stream` and `chip_reset` return failure for every argument, bit counts of 65536
and more included, and leave the object and the log of socket calls as they were. -/
theorem not_connected_fails_without_transport_call {σ : Type} (C : Proxy_consts)
    (T : Tcp_socket σ) (p : Jtag_proxy σ) (h : p.m_socket = none) :
    (∀ inbit outbit last,
      bit_inout C T p inbit outbit last = some { ret := false, proxy := p, instream := inbit }) ∧
    (∀ instream outstream n_bits last,
      stream_inout C T p instream outstream n_bits last =
        some { ret := false, proxy := p, instream := instream }) ∧
    (∀ active, jtag_reset C T p active = some { ret := false, proxy := p, instream := none }) ∧
    (∀ instream outstream n_bits last bit,
      proxy_stream C T p instream outstream n_bits last bit =
        some { ret := false, proxy := p, instream := instream }) ∧
    (∀ active, chip_reset C T p active = (false, p)) := by
  refine ⟨?_, ?_, ?_, ?_, ?_⟩
  · intro inbit outbit last
    exact proxy_stream_not_connected C T p _ _ _ _ _ h
  · intro instream outstream n_bits last
    exact proxy_stream_not_connected C T p _ _ _ _ _ h
  · intro active
    exact proxy_stream_not_connected C T p _ _ _ _ _ h
  · intro instream outstream n_bits last bit
    exact proxy_stream_not_connected C T p _ _ _ _ _ h
  · intro active
    simp [chip_reset, h]

theorem not_connected_fails_without_transport_call_witness :
    (sample_proxy none).m_socket = none ∧
    stream_inout sample_consts (loopback sample_consts) (sample_proxy none)
        (some (mem_of [7])) (some (mem_of [5])) 70000 true =
      some { ret := false, proxy := sample_proxy none, instream := some (mem_of [7]) } ∧
    chip_reset sample_consts (loopback sample_consts) (sample_proxy none) true =
      (false, sample_proxy none) :=
  ⟨rfl,
    (not_connected_fails_without_transport_call sample_consts (loopback sample_consts)
      (sample_proxy none) rfl).2.1 (some (mem_of [7])) (some (mem_of [5])) 70000 true,
    (not_connected_fails_without_transport_call sample_consts (loopback sample_consts)
      (sample_proxy none) rfl).2.2.2.2 true⟩

/-- C9. From any state `client_disconnected` clears `m_socket` and then invokes the state
callback once, with `CABLE_DISCONNECTED`, at a moment when `m_socket` is already null;
no socket call is made, and every sequence of scan and chip-reset calls made afterwards
returns failure on each call and leaves the log of socket calls as it was. -/
theorem disconnected_then_every_call_fails {σ : Type} (C : Proxy_consts) (T : Tcp_socket σ)
    (p : Jtag_proxy σ) (socket : Option σ) (calls : List Scan_call) :
    (client_disconnected p socket).m_socket = none ∧
    (client_disconnected p socket).cb_log =
      p.cb_log ++ [(cable_state_t.CABLE_DISCONNECTED, none)] ∧
    (client_disconnected p socket).io_log = p.io_log ∧
    (client_disconnected p socket).connect_log = p.connect_log ∧
    run_calls C T (client_disconnected p socket) calls =
      some (calls.map (fun _ => false), client_disconnected p socket) :=
  ⟨rfl, rfl, rfl, rfl, run_calls_not_connected C T _ rfl calls⟩

/-- C10. `client_connected` with a null socket issues one asynchronous connect to the
stored host and port, invokes no callback and leaves `m_socket`, host and port as they
were; when the socket then arrives, no further connect is issued and the callback is
invoked once, with `CABLE_CONNECTED`. -/
theorem timeout_retries_once_then_reports_connected {σ : Type} (p : Jtag_proxy σ) (h : σ) :
    (client_connected p none).connect_log = p.connect_log ++ [(p.m_server, p.m_port)] ∧
    (client_connected p none).cb_log = p.cb_log ∧
    (client_connected p none).m_socket = p.m_socket ∧
    (client_connected p none).m_server = p.m_server ∧
    (client_connected p none).m_port = p.m_port ∧
    (client_connected p none).io_log = p.io_log ∧
    (client_connected (client_connected p none) (some h)).connect_log =
      p.connect_log ++ [(p.m_server, p.m_port)] ∧
    (client_connected (client_connected p none) (some h)).cb_log =
      p.cb_log ++ [(cable_state_t.CABLE_CONNECTED, p.m_socket)] :=
  ⟨rfl, rfl, rfl, rfl, rfl, rfl, rfl, rfl⟩

/-- C7. What `client_connected` does with a socket: the callback is invoked once with
`CABLE_CONNECTED`, and `m_socket` keeps the value it had, so that on an object whose
`m_socket` is null a following scan or chip reset fails without any socket call. -/
theorem client_connected_keeps_m_socket {σ : Type} (C : Proxy_consts) (T : Tcp_socket σ)
    (p : Jtag_proxy σ) (h : σ) :
    (client_connected p (some h)).m_socket = p.m_socket ∧
    (client_connected p (some h)).cb_log =
      p.cb_log ++ [(cable_state_t.CABLE_CONNECTED, p.m_socket)] ∧
    (client_connected (sample_proxy none) (some [1])).m_socket = none ∧
    stream_inout sample_consts (loopback sample_consts)
        (client_connected (sample_proxy none) (some [1])) none (some (mem_of [5])) 3 true =
      some { ret := false, proxy := client_connected (sample_proxy none) (some [1]),
             instream := none } ∧
    chip_reset C T (client_connected (client_disconnected p none) (some h)) true =
      (false, client_connected (client_disconnected p none) (some h)) :=
  ⟨rfl, rfl, rfl, rfl, rfl⟩

/-! ## The control bytes of a scan -/

theorem control_byte_reference_lt (C : Proxy_consts) (outstream : Option (Nat → Nat))
    (n_bits : Nat) (last : Bool) (bit i : Nat) (hbit : bit < 8)
    (hT : C.DEBUG_BRIDGE_JTAG_TRST < 8) (hM : C.DEBUG_BRIDGE_JTAG_TMS < 8) :
    control_byte_reference C outstream n_bits last bit i < 256 := by
  have h256 : (256 : Nat) = 2 ^ 8 := by norm_num
  rw [h256]
  apply Nat.lt_pow_two_of_testBit
  intro q hq
  have h1 : ¬ q = bit := by omega
  have h2 : ¬ q = C.DEBUG_BRIDGE_JTAG_TRST := by omega
  have h3 : ¬ q = C.DEBUG_BRIDGE_JTAG_TMS := by omega
  simp only [control_byte_reference, Nat.testBit_or, testBit_drive_bit_shift]
  have e2 : (if bit ≠ C.DEBUG_BRIDGE_JTAG_TRST then 1 <<< C.DEBUG_BRIDGE_JTAG_TRST
      else 0).testBit q = false := by
    split
    · rw [testBit_one_shift]; simp [h2]
    · simp
  have e3 : (if last = true ∧ i = n_bits - 1 then 1 <<< C.DEBUG_BRIDGE_JTAG_TMS
      else 0).testBit q = false := by
    split
    · rw [testBit_one_shift]; simp [h3]
    · simp
  rw [e2, e3]
  simp [h1]

/-- For line positions inside a byte, and a scan that has a cycle or does not terminate,
the buffer has `n_bits` bytes and byte `i` is the reference byte `i`, untruncated. -/
theorem proxy_stream_buffer_reference (C : Proxy_consts) (outstream : Option (Nat → Nat))
    (n_bits : Nat) (last : Bool) (bit : Nat) (hn : n_bits < 65536)
    (h : 1 ≤ n_bits ∨ last = false) (hbit : bit < 8)
    (hT : C.DEBUG_BRIDGE_JTAG_TRST < 8) (hM : C.DEBUG_BRIDGE_JTAG_TMS < 8) :
    proxy_stream_buffer C outstream n_bits last bit =
      some ((List.range n_bits).map (control_byte_reference C outstream n_bits last bit)) := by
  rw [proxy_stream_buffer_eq C outstream n_bits last bit (by omega) h]
  refine congrArg some ?_
  apply List.map_congr_left
  intro i _
  exact Nat.mod_eq_of_lt (control_byte_reference_lt C outstream n_bits last bit i hbit hT hM)

/-- C3. Where the buffer departs from its reference definition: with `bit_count = 0` the
builder returns the empty buffer when `chain_terminate` is clear, but when it is set the
store at `n_bits-1` addresses element 4294967295 of an empty vector, so neither the
builder nor `stream_inout` on a connected transport yields a buffer of 0 bytes. -/
theorem empty_terminating_scan_leaves_the_vector :
    (∀ (C : Proxy_consts) (outstream : Option (Nat → Nat)) (bit : Nat),
      proxy_stream_buffer C outstream 0 false bit = some [] ∧
      proxy_stream_buffer C outstream 0 true bit = none) ∧
    stream_inout sample_consts (loopback sample_consts) (sample_proxy (some []))
      none (some (mem_of [5])) 0 true = none := by
  refine ⟨fun C outstream bit => ⟨?_, proxy_stream_buffer_zero_last C outstream bit⟩, ?_⟩
  · rw [proxy_stream_buffer_eq C outstream 0 false bit (by norm_num) (Or.inr rfl)]
    rfl
  · simp [stream_inout, proxy_stream, sample_proxy, proxy_stream_buffer_zero_last]

/-- C4. In every control buffer the code builds for fewer than 65536 cycles, the
TAP-reset bit of each byte is set when the selected line is not the TAP-reset line (in
particular on the primary data line, which is what `bit_inout` and `stream_inout` select),
and equals the drive bit of that cycle when the selected line is the TAP-reset line; a
buffer of `n_bits` bytes is built whenever the scan has at least one cycle. -/
theorem tap_reset_bit_invariant (C : Proxy_consts) (outstream : Option (Nat → Nat))
    (n_bits : Nat) (last : Bool) (hC : C.lines_ok) (hn : n_bits < 65536) :
    (∀ bit, 1 ≤ n_bits →
      ∃ buf, proxy_stream_buffer C outstream n_bits last bit = some buf ∧ buf.length = n_bits) ∧
    (∀ bit buf, bit ≠ C.DEBUG_BRIDGE_JTAG_TRST →
      proxy_stream_buffer C outstream n_bits last bit = some buf →
      ∀ i, i < n_bits → (buf.getD i 0).testBit C.DEBUG_BRIDGE_JTAG_TRST = true) ∧
    (∀ buf, proxy_stream_buffer C outstream n_bits last C.DEBUG_BRIDGE_JTAG_TDI = some buf →
      ∀ i, i < n_bits → (buf.getD i 0).testBit C.DEBUG_BRIDGE_JTAG_TRST = true) ∧
    (∀ buf, proxy_stream_buffer C outstream n_bits last C.DEBUG_BRIDGE_JTAG_TRST = some buf →
      ∀ i, i < n_bits →
        (buf.getD i 0).testBit C.DEBUG_BRIDGE_JTAG_TRST = decide (drive_bit outstream i = 1)) := by
  obtain ⟨_, _, hT, _, hDT, hMT⟩ := hC
  have key : ∀ bit buf, proxy_stream_buffer C outstream n_bits last bit = some buf →
      ∀ i, i < n_bits → buf.getD i 0 = control_byte_reference C outstream n_bits last bit i % 256 := by
    intro bit buf hbuf i hi
    have h1 : 1 ≤ n_bits := by omega
    rw [proxy_stream_buffer_eq C outstream n_bits last bit (by omega) (Or.inl h1)] at hbuf
    cases hbuf
    exact getD_map_range n_bits i _ hi
  refine ⟨?_, ?_, ?_, ?_⟩
  · intro bit h1
    refine ⟨_, proxy_stream_buffer_eq C outstream n_bits last bit (by omega) (Or.inl h1), ?_⟩
    simp
  · intro bit buf hbit hbuf i hi
    rw [key bit buf hbuf i hi, control_byte_testBit _ _ _ _ _ _ _ hT]
    simp [hbit]
  · intro buf hbuf i hi
    rw [key _ buf hbuf i hi, control_byte_testBit _ _ _ _ _ _ _ hT]
    simp [hDT]
  · intro buf hbuf i hi
    rw [key _ buf hbuf i hi, control_byte_testBit _ _ _ _ _ _ _ hT]
    have : ¬ C.DEBUG_BRIDGE_JTAG_TRST = C.DEBUG_BRIDGE_JTAG_TMS := fun e => hMT e.symm
    simp [this]

theorem tap_reset_bit_invariant_witness :
    sample_consts.lines_ok ∧ 3 < 65536 ∧
    (∀ buf, proxy_stream_buffer sample_consts (some (mem_of [5])) 3 true
        sample_consts.DEBUG_BRIDGE_JTAG_TDI = some buf →
      ∀ i, i < 3 → (buf.getD i 0).testBit sample_consts.DEBUG_BRIDGE_JTAG_TRST = true) :=
  ⟨by decide, by decide,
    (tap_reset_bit_invariant sample_consts (some (mem_of [5])) 3 true (by decide)
      (by decide)).2.2.1⟩

/-- C5. For a scan of 1 to 65535 cycles on the primary data line or on the TAP-reset
line, the code builds a buffer of `n_bits` bytes in which the TMS bit of byte `i` is set
exactly when `chain_terminate` holds and `i` is the last index: in the last byte and no
other when the flag is set, and in no byte when it is clear. -/
theorem tms_invariant (C : Proxy_consts) (outstream : Option (Nat → Nat))
    (n_bits : Nat) (last : Bool) (bit : Nat) (hC : C.lines_ok)
    (h1 : 1 ≤ n_bits) (hn : n_bits ≤ 65535)
    (hbit : bit = C.DEBUG_BRIDGE_JTAG_TDI ∨ bit = C.DEBUG_BRIDGE_JTAG_TRST) :
    ∃ buf, proxy_stream_buffer C outstream n_bits last bit = some buf ∧
      buf.length = n_bits ∧
      ∀ i, i < n_bits →
        (buf.getD i 0).testBit C.DEBUG_BRIDGE_JTAG_TMS = (last && decide (i = n_bits - 1)) := by
  obtain ⟨_, hM, _, hDM, _, hMT⟩ := hC
  refine ⟨_, proxy_stream_buffer_eq C outstream n_bits last bit (by omega) (Or.inl h1), by simp,
    ?_⟩
  intro i hi
  rw [getD_map_range n_bits i _ hi, control_byte_testBit _ _ _ _ _ _ _ hM]
  have hne : ¬ C.DEBUG_BRIDGE_JTAG_TMS = bit := by
    rcases hbit with h | h
    · rw [h]; exact fun e => hDM e.symm
    · rw [h]; exact hMT
  cases last <;> simp [hne, hMT]

theorem tms_invariant_witness :
    sample_consts.lines_ok ∧ 1 ≤ 3 ∧ 3 ≤ 65535 ∧
    ∃ buf, proxy_stream_buffer sample_consts (some (mem_of [5])) 3 true 0 = some buf ∧
      buf.length = 3 ∧
      ∀ i, i < 3 →
        (buf.getD i 0).testBit sample_consts.DEBUG_BRIDGE_JTAG_TMS =
          (true && decide (i = 3 - 1)) :=
  ⟨by decide, by decide, by decide,
    tms_invariant sample_consts (some (mem_of [5])) 3 true 0 (by decide) (by decide)
      (by decide) (Or.inl rfl)⟩

/-! ## Scans on a connected transport -/

theorem proxy_stream_connected {σ : Type} (C : Proxy_consts) (T : Tcp_socket σ)
    (p : Jtag_proxy σ) (s : σ) (instream outstream : Option (Nat → Nat)) (n_bits : Nat)
    (last : Bool) (bit : Nat) (buffer : List Nat) (hs : p.m_socket = some s)
    (hn : n_bits < 65536)
    (hbuf : proxy_stream_buffer C outstream n_bits last bit = some buffer)
    (hw1 : (T.write_immediate s
      (Payload.header (proxy_req_t.jtag C.DEBUG_BRIDGE_JTAG_REQ n_bits instream.isSome))
      C.sizeof_req).1 = (C.sizeof_req : Int))
    (hw2 : (T.write_immediate (T.write_immediate s
      (Payload.header (proxy_req_t.jtag C.DEBUG_BRIDGE_JTAG_REQ n_bits instream.isSome))
      C.sizeof_req).2 (Payload.data buffer) n_bits).1 = (n_bits : Int))
    (mem : Nat → Nat) (hi : instream = some mem) :
    ∃ res, proxy_stream C T p instream outstream n_bits last bit = some res ∧
      res.ret = decide ((T.read_immediate (T.write_immediate (T.write_immediate s
        (Payload.header (proxy_req_t.jtag C.DEBUG_BRIDGE_JTAG_REQ n_bits true))
        C.sizeof_req).2 (Payload.data buffer) n_bits).2 ((n_bits + 7) / 8)).1.1 =
          (((n_bits + 7) / 8 : Nat) : Int)) ∧
      res.instream = some (store_bytes (memset mem 0 ((n_bits + 7) / 8))
        ((T.read_immediate (T.write_immediate (T.write_immediate s
          (Payload.header (proxy_req_t.jtag C.DEBUG_BRIDGE_JTAG_REQ n_bits true))
          C.sizeof_req).2 (Payload.data buffer) n_bits).2
            ((n_bits + 7) / 8)).1.2.take ((n_bits + 7) / 8))) := by
  subst hi
  have hlt : ¬ n_bits ≥ 65536 := by omega
  simp only [Option.isSome_some] at hw1 hw2
  unfold proxy_stream
  simp only [hs, hlt, if_false, hbuf, Option.isSome_some, hw1, hw2, ne_eq, not_true_eq_false]
  exact ⟨_, rfl, rfl, rfl⟩

theorem proxy_stream_no_capture {σ : Type} (C : Proxy_consts) (T : Tcp_socket σ)
    (p : Jtag_proxy σ) (s : σ) (outstream : Option (Nat → Nat)) (n_bits : Nat)
    (last : Bool) (bit : Nat) (buffer : List Nat) (hs : p.m_socket = some s)
    (hn : n_bits < 65536)
    (hbuf : proxy_stream_buffer C outstream n_bits last bit = some buffer) :
    proxy_stream C T p none outstream n_bits last bit =
      some
        { ret := decide ((T.write_immediate s
              (Payload.header (proxy_req_t.jtag C.DEBUG_BRIDGE_JTAG_REQ n_bits false))
              C.sizeof_req).1 = (C.sizeof_req : Int)) &&
            decide ((T.write_immediate (T.write_immediate s
              (Payload.header (proxy_req_t.jtag C.DEBUG_BRIDGE_JTAG_REQ n_bits false))
              C.sizeof_req).2 (Payload.data buffer) n_bits).1 = (n_bits : Int)),
          proxy :=
            { p with
              m_socket :=
                some (if (T.write_immediate s
                    (Payload.header (proxy_req_t.jtag C.DEBUG_BRIDGE_JTAG_REQ n_bits false))
                    C.sizeof_req).1 = (C.sizeof_req : Int) then
                  (T.write_immediate (T.write_immediate s
                    (Payload.header (proxy_req_t.jtag C.DEBUG_BRIDGE_JTAG_REQ n_bits false))
                    C.sizeof_req).2 (Payload.data buffer) n_bits).2
                else
                  (T.write_immediate s
                    (Payload.header (proxy_req_t.jtag C.DEBUG_BRIDGE_JTAG_REQ n_bits false))
                    C.sizeof_req).2),
              io_log :=
                p.io_log ++
                  Io_event.write
                    (Payload.header (proxy_req_t.jtag C.DEBUG_BRIDGE_JTAG_REQ n_bits false))
                    C.sizeof_req
                    (T.write_immediate s
                      (Payload.header (proxy_req_t.jtag C.DEBUG_BRIDGE_JTAG_REQ n_bits false))
                      C.sizeof_req).1 ::
                  (if (T.write_immediate s
                      (Payload.header (proxy_req_t.jtag C.DEBUG_BRIDGE_JTAG_REQ n_bits false))
                      C.sizeof_req).1 = (C.sizeof_req : Int) then
                    [Io_event.write (Payload.data buffer) n_bits
                      (T.write_immediate (T.write_immediate s
                        (Payload.header (proxy_req_t.jtag C.DEBUG_BRIDGE_JTAG_REQ n_bits false))
                        C.sizeof_req).2 (Payload.data buffer) n_bits).1]
                  else []) },
          instream := none } := by
  have hlt : ¬ n_bits ≥ 65536 := by omega
  unfold proxy_stream
  simp only [hs, hlt, if_false, hbuf, Option.isSome_none]
  by_cases hw1 : (T.write_immediate s
      (Payload.header (proxy_req_t.jtag C.DEBUG_BRIDGE_JTAG_REQ n_bits false)) C.sizeof_req).1 =
      (C.sizeof_req : Int)
  · by_cases hw2 : (T.write_immediate (T.write_immediate s
        (Payload.header (proxy_req_t.jtag C.DEBUG_BRIDGE_JTAG_REQ n_bits false)) C.sizeof_req).2
        (Payload.data buffer) n_bits).1 = (n_bits : Int)
    · simp [hw1, hw2]
    · simp [hw1, hw2]
  · simp [hw1]

/-- C6. On a connected transport `jtag_reset(active)` writes one scan header with
`bits = 1` and the capture flag off; the single control byte of that scan has its
TAP-reset bit equal to the negation of `active` and its TMS bit clear, and is written
when the header was taken in full; no read is made and no capture memory is touched. -/
theorem jtag_reset_drives_inverse {σ : Type} (C : Proxy_consts) (T : Tcp_socket σ)
    (p : Jtag_proxy σ) (s : σ) (active : Bool) (hC : C.lines_ok) (hs : p.m_socket = some s) :
    ∃ res b,
      jtag_reset C T p active = some res ∧
      proxy_stream_buffer C (some (int_object (if active then 0 else 1))) 1 false
        C.DEBUG_BRIDGE_JTAG_TRST = some [b] ∧
      b.testBit C.DEBUG_BRIDGE_JTAG_TRST = !active ∧
      b.testBit C.DEBUG_BRIDGE_JTAG_TMS = false ∧
      res.instream = none ∧
      res.proxy.io_log =
        p.io_log ++
          Io_event.write (Payload.header (proxy_req_t.jtag C.DEBUG_BRIDGE_JTAG_REQ 1 false))
            C.sizeof_req
            (T.write_immediate s
              (Payload.header (proxy_req_t.jtag C.DEBUG_BRIDGE_JTAG_REQ 1 false))
              C.sizeof_req).1 ::
          (if (T.write_immediate s
              (Payload.header (proxy_req_t.jtag C.DEBUG_BRIDGE_JTAG_REQ 1 false))
              C.sizeof_req).1 = (C.sizeof_req : Int) then
            [Io_event.write (Payload.data [b]) 1
              (T.write_immediate (T.write_immediate s
                (Payload.header (proxy_req_t.jtag C.DEBUG_BRIDGE_JTAG_REQ 1 false))
                C.sizeof_req).2 (Payload.data [b]) 1).1]
          else []) ∧
      (∀ e ∈ res.proxy.io_log.drop p.io_log.length, e.is_read = false) := by
  obtain ⟨_, hM, hT, _, _, hMT⟩ := hC
  have hbuf := proxy_stream_buffer_eq C (some (int_object (if active then 0 else 1))) 1 false
    C.DEBUG_BRIDGE_JTAG_TRST (by norm_num) (Or.inl (le_refl 1))
  have hd : drive_bit (some (int_object (if active then 0 else 1))) 0 =
      if active then 0 else 1 := by
    cases active <;> simp [drive_bit, int_object]
  have hbuf1 : proxy_stream_buffer C (some (int_object (if active then 0 else 1))) 1 false
      C.DEBUG_BRIDGE_JTAG_TRST =
      some [control_byte_reference C (some (int_object (if active then 0 else 1))) 1 false
        C.DEBUG_BRIDGE_JTAG_TRST 0 % 256] := by
    rw [hbuf]; rfl
  have hne : ¬ C.DEBUG_BRIDGE_JTAG_TMS = C.DEBUG_BRIDGE_JTAG_TRST := hMT
  have hbT : (control_byte_reference C (some (int_object (if active then 0 else 1))) 1 false
      C.DEBUG_BRIDGE_JTAG_TRST 0 % 256).testBit C.DEBUG_BRIDGE_JTAG_TRST = !active := by
    rw [control_byte_testBit _ _ _ _ _ _ _ hT, hd]
    cases active <;> simp
  have hbM : (control_byte_reference C (some (int_object (if active then 0 else 1))) 1 false
      C.DEBUG_BRIDGE_JTAG_TRST 0 % 256).testBit C.DEBUG_BRIDGE_JTAG_TMS = false := by
    rw [control_byte_testBit _ _ _ _ _ _ _ hM]
    simp [hne]
  have hres : jtag_reset C T p active = _ :=
    proxy_stream_no_capture C T p s _ 1 false _ _ hs (by norm_num) hbuf1
  refine ⟨_, _, hres, hbuf1, hbT, hbM, rfl, ?_, ?_⟩
  · simp
  · intro e he
    simp only [List.drop_left] at he
    by_cases hw1 : (T.write_immediate s
        (Payload.header (proxy_req_t.jtag C.DEBUG_BRIDGE_JTAG_REQ 1 false)) C.sizeof_req).1 =
        (C.sizeof_req : Int)
    · simp only [hw1, if_true, Nat.cast_one] at he
      simp at he
      rcases he with he | he <;> rw [he] <;> rfl
    · rw [if_neg (by simpa using hw1)] at he
      simp at he
      rw [he]; rfl

theorem line_bit_of_buffer (C : Proxy_consts) (outstream : Option (Nat → Nat))
    (n_bits : Nat) (last : Bool) (hC : C.lines_ok) (i : Nat) :
    line_bit C ((List.range n_bits).map
        (fun i => control_byte_reference C outstream n_bits last C.DEBUG_BRIDGE_JTAG_TDI i % 256))
        i =
      (decide (i < n_bits) && decide (drive_bit outstream i = 1)) := by
  obtain ⟨hD, _, _, hDM, hDT, _⟩ := hC
  unfold line_bit
  by_cases hi : i < n_bits
  · rw [getD_map_range n_bits i _ hi, control_byte_testBit _ _ _ _ _ _ _ hD]
    simp [hi, hDM, hDT]
  · have : ((List.range n_bits).map
        (fun i => control_byte_reference C outstream n_bits last C.DEBUG_BRIDGE_JTAG_TDI i % 256)).getD
        i 0 = 0 := by
      apply List.getD_eq_default
      simp only [List.length_map, List.length_range]
      omega
    rw [this]
    simp [hi]

theorem testBit_byte_high (x j : Nat) (hx : x < 256) (hj : 8 ≤ j) : x.testBit j = false := by
  apply Nat.testBit_lt_two_pow
  have h1 : 2 ^ 8 ≤ 2 ^ j := Nat.pow_le_pow_right (by norm_num) hj
  have h2 : (2 : Nat) ^ 8 = 256 := by norm_num
  omega

/-- C1. Round trip through a loopback bridge. For 1 to 65535 bits, a drive buffer of
`ceil(n/8)` bytes and either value of `chain_terminate`, `stream_inout` on a connected
transport that takes every write in full and answers with the data-line bit of control
byte `i` at bit `i mod 8` of response byte `i div 8` succeeds, and bit `j` of capture byte
`k` is bit `j` of drive byte `k` when the bit index `8k+j` is below `n` and is clear
otherwise; memory after the capture bytes is left as it was. -/
theorem loopback_round_trip {σ : Type} (C : Proxy_consts) (T : Tcp_socket σ)
    (p : Jtag_proxy σ) (s : σ) (n : Nat) (last : Bool) (drive : List Nat) (cap : Nat → Nat)
    (hC : C.lines_ok) (hw : accepts_all_writes T) (he : echoes_drive_line C T)
    (hs : p.m_socket = some s) (h1 : 1 ≤ n) (hn : n ≤ 65535)
    (hlen : drive.length = (n + 7) / 8) (hbytes : ∀ x ∈ drive, x < 256) :
    ∃ res mem,
      stream_inout C T p (some cap) (some (mem_of drive)) n last = some res ∧
      res.ret = true ∧
      res.instream = some mem ∧
      (∀ k, k < (n + 7) / 8 → ∀ j,
        (mem k).testBit j = (decide (8 * k + j < n) && (drive.getD k 0).testBit j)) ∧
      (∀ k, (n + 7) / 8 ≤ k → mem k = cap k) := by
  have hbuf := proxy_stream_buffer_eq C (some (mem_of drive)) n last C.DEBUG_BRIDGE_JTAG_TDI
    (by omega) (Or.inl h1)
  obtain ⟨res, hres, hret, hin⟩ := proxy_stream_connected C T p s (some cap)
    (some (mem_of drive)) n last C.DEBUG_BRIDGE_JTAG_TDI _ hs (by omega) hbuf
    (hw _ _ _) (hw _ _ _) cap rfl
  rw [he] at hret hin
  have htake : (loopback_response C ((List.range n).map
      (fun i => control_byte_reference C (some (mem_of drive)) n last
        C.DEBUG_BRIDGE_JTAG_TDI i % 256)) ((n + 7) / 8)).take ((n + 7) / 8) =
      loopback_response C ((List.range n).map
      (fun i => control_byte_reference C (some (mem_of drive)) n last
        C.DEBUG_BRIDGE_JTAG_TDI i % 256)) ((n + 7) / 8) := by
    apply List.take_of_length_le
    simp [loopback_response]
  simp only [htake] at hin
  refine ⟨res, _, hres, ?_, hin, ?_, ?_⟩
  · rw [hret]; simp
  · intro k hk j
    have hkl : k < (loopback_response C ((List.range n).map
        (fun i => control_byte_reference C (some (mem_of drive)) n last
          C.DEBUG_BRIDGE_JTAG_TDI i % 256)) ((n + 7) / 8)).length := by
      simp [loopback_response, hk]
    simp only [store_bytes, dif_pos hkl]
    simp only [loopback_response, List.getElem_map, List.getElem_range, testBit_pack_bits,
      line_bit_of_buffer C _ n last hC]
    by_cases hj : j < 8
    · have e1 : (8 * k + j) / 8 = k := by omega
      have e2 : (8 * k + j) % 8 = j := by omega
      simp only [hj, decide_True, Bool.true_and, drive_bit, mem_of, e1, e2]
      cases hb : (drive.getD k 0).testBit j <;> simp
    · have hx : drive.getD k 0 < 256 := by
        have hkd : k < drive.length := by omega
        have : drive.getD k 0 = drive[k] := by simp [List.getD, hkd]
        rw [this]
        exact hbytes _ (List.getElem_mem _)
      rw [testBit_byte_high _ j hx (by omega)]
      simp [hj]
  · intro k hk
    have hkl : ¬ k < (loopback_response C ((List.range n).map
        (fun i => control_byte_reference C (some (mem_of drive)) n last
          C.DEBUG_BRIDGE_JTAG_TDI i % 256)) ((n + 7) / 8)).length := by
      simp [loopback_response, hk]
    simp only [store_bytes, dif_neg hkl, memset]
    rw [if_neg (by omega)]

theorem jtag_reset_drives_inverse_witness :
    sample_consts.lines_ok ∧ (sample_proxy (some [])).m_socket = some [] ∧
    ∃ (res : Stream_result (List Nat)) (b : Nat),
      jtag_reset sample_consts (loopback sample_consts) (sample_proxy (some [])) true =
        some res ∧
      b.testBit sample_consts.DEBUG_BRIDGE_JTAG_TRST = !true ∧
      b.testBit sample_consts.DEBUG_BRIDGE_JTAG_TMS = false ∧
      res.instream = none :=
  ⟨by decide, rfl,
    match jtag_reset_drives_inverse sample_consts (loopback sample_consts)
      (sample_proxy (some [])) [] true (by decide) rfl with
    | ⟨res, b, h1, _, h3, h4, h5, _⟩ => ⟨res, b, h1, h3, h4, h5⟩⟩

theorem loopback_round_trip_witness :
    sample_consts.lines_ok ∧ accepts_all_writes (loopback sample_consts) ∧
    echoes_drive_line sample_consts (loopback sample_consts) ∧
    (sample_proxy (some [])).m_socket = some [] ∧ 1 ≤ 3 ∧ 3 ≤ 65535 ∧
    [5].length = (3 + 7) / 8 ∧ (∀ x ∈ [5], x < 256) ∧
    ∃ (res : Stream_result (List Nat)) (mem : Nat → Nat),
      stream_inout sample_consts (loopback sample_consts) (sample_proxy (some []))
        (some (mem_of [255])) (some (mem_of [5])) 3 true = some res ∧
      res.ret = true ∧ res.instream = some mem ∧ mem 0 = 5 := by
  have hw : accepts_all_writes (loopback sample_consts) := by
    intro s payload len
    cases payload <;> rfl
  have he : echoes_drive_line sample_consts (loopback sample_consts) := by
    intro s req ctrl n len
    rfl
  have hb : ∀ x ∈ [5], x < 256 := by decide
  obtain ⟨res, mem, h1, h2, h3, h4, _⟩ :=
    loopback_round_trip sample_consts (loopback sample_consts) (sample_proxy (some [])) []
      3 true [5] (mem_of [255]) (by decide) hw he rfl (by decide) (by decide) rfl hb
  refine ⟨by decide, hw, he, rfl, by decide, by decide, rfl, hb, res, mem, h1, h2, h3, ?_⟩
  apply Nat.eq_of_testBit_eq
  intro j
  rw [h4 0 (by decide) j]
  by_cases hj : j < 3
  · simp [hj]
  · have h5 : Nat.testBit 5 j = false :=
      Nat.testBit_lt_two_pow (by
        have : 2 ^ 3 ≤ 2 ^ j := Nat.pow_le_pow_right (by norm_num) (by omega)
        omega)
    simp [hj, h5]

/-! ## The four ways a scan that reaches the transport ends -/

theorem proxy_stream_header_short {σ : Type} (C : Proxy_consts) (T : Tcp_socket σ)
    (p : Jtag_proxy σ) (s : σ) (instream outstream : Option (Nat → Nat)) (n_bits : Nat)
    (last : Bool) (bit : Nat) (buffer : List Nat) (hs : p.m_socket = some s)
    (hn : n_bits < 65536)
    (hbuf : proxy_stream_buffer C outstream n_bits last bit = some buffer)
    (hw1 : (T.write_immediate s (scan_header C n_bits instream) C.sizeof_req).1 ≠
      (C.sizeof_req : Int)) :
    proxy_stream C T p instream outstream n_bits last bit =
      some
        { ret := false,
          proxy :=
            { p with
              m_socket := some (T.write_immediate s (scan_header C n_bits instream)
                C.sizeof_req).2,
              io_log := p.io_log ++
                [Io_event.write (scan_header C n_bits instream) C.sizeof_req
                  (T.write_immediate s (scan_header C n_bits instream) C.sizeof_req).1] },
          instream := instream } := by
  have hlt : ¬ n_bits ≥ 65536 := by omega
  unfold scan_header at hw1 ⊢
  unfold proxy_stream
  simp only [hs, hlt, if_false, hbuf, ne_eq, hw1, not_false_eq_true, if_true]

theorem proxy_stream_data_short {σ : Type} (C : Proxy_consts) (T : Tcp_socket σ)
    (p : Jtag_proxy σ) (s : σ) (instream outstream : Option (Nat → Nat)) (n_bits : Nat)
    (last : Bool) (bit : Nat) (buffer : List Nat) (hs : p.m_socket = some s)
    (hn : n_bits < 65536)
    (hbuf : proxy_stream_buffer C outstream n_bits last bit = some buffer)
    (hw1 : (T.write_immediate s (scan_header C n_bits instream) C.sizeof_req).1 =
      (C.sizeof_req : Int))
    (hw2 : (T.write_immediate
      (T.write_immediate s (scan_header C n_bits instream) C.sizeof_req).2
      (Payload.data buffer) n_bits).1 ≠ (n_bits : Int)) :
    proxy_stream C T p instream outstream n_bits last bit =
      some
        { ret := false,
          proxy :=
            { p with
              m_socket := some (T.write_immediate
                (T.write_immediate s (scan_header C n_bits instream) C.sizeof_req).2
                (Payload.data buffer) n_bits).2,
              io_log := p.io_log ++
                [Io_event.write (scan_header C n_bits instream) C.sizeof_req
                  (T.write_immediate s (scan_header C n_bits instream) C.sizeof_req).1] ++
                [Io_event.write (Payload.data buffer) n_bits
                  (T.write_immediate
                    (T.write_immediate s (scan_header C n_bits instream) C.sizeof_req).2
                    (Payload.data buffer) n_bits).1] },
          instream := instream } := by
  have hlt : ¬ n_bits ≥ 65536 := by omega
  unfold scan_header at hw1 hw2 ⊢
  unfold proxy_stream
  simp only [hs, hlt, if_false, hbuf, ne_eq, hw1, hw2, not_false_eq_true, if_true,
    not_true_eq_false]

theorem proxy_stream_written_no_capture {σ : Type} (C : Proxy_consts) (T : Tcp_socket σ)
    (p : Jtag_proxy σ) (s : σ) (outstream : Option (Nat → Nat)) (n_bits : Nat)
    (last : Bool) (bit : Nat) (buffer : List Nat) (hs : p.m_socket = some s)
    (hn : n_bits < 65536)
    (hbuf : proxy_stream_buffer C outstream n_bits last bit = some buffer)
    (hw1 : (T.write_immediate s (scan_header C n_bits none) C.sizeof_req).1 =
      (C.sizeof_req : Int))
    (hw2 : (T.write_immediate
      (T.write_immediate s (scan_header C n_bits none) C.sizeof_req).2
      (Payload.data buffer) n_bits).1 = (n_bits : Int)) :
    proxy_stream C T p none outstream n_bits last bit =
      some
        { ret := true,
          proxy :=
            { p with
              m_socket := some (T.write_immediate
                (T.write_immediate s (scan_header C n_bits none) C.sizeof_req).2
                (Payload.data buffer) n_bits).2,
              io_log := p.io_log ++
                [Io_event.write (scan_header C n_bits none) C.sizeof_req
                  (T.write_immediate s (scan_header C n_bits none) C.sizeof_req).1] ++
                [Io_event.write (Payload.data buffer) n_bits
                  (T.write_immediate
                    (T.write_immediate s (scan_header C n_bits none) C.sizeof_req).2
                    (Payload.data buffer) n_bits).1] },
          instream := none } := by
  have hlt : ¬ n_bits ≥ 65536 := by omega
  unfold scan_header at hw1 hw2 ⊢
  unfold proxy_stream
  simp only [hs, hlt, if_false, hbuf, ne_eq, hw1, hw2, not_true_eq_false]

theorem proxy_stream_written_capture {σ : Type} (C : Proxy_consts) (T : Tcp_socket σ)
    (p : Jtag_proxy σ) (s : σ) (mem : Nat → Nat) (outstream : Option (Nat → Nat))
    (n_bits : Nat) (last : Bool) (bit : Nat) (buffer : List Nat) (hs : p.m_socket = some s)
    (hn : n_bits < 65536)
    (hbuf : proxy_stream_buffer C outstream n_bits last bit = some buffer)
    (hw1 : (T.write_immediate s (scan_header C n_bits (some mem)) C.sizeof_req).1 =
      (C.sizeof_req : Int))
    (hw2 : (T.write_immediate
      (T.write_immediate s (scan_header C n_bits (some mem)) C.sizeof_req).2
      (Payload.data buffer) n_bits).1 = (n_bits : Int)) :
    proxy_stream C T p (some mem) outstream n_bits last bit =
      some
        { ret := decide ((T.read_immediate (T.write_immediate
              (T.write_immediate s (scan_header C n_bits (some mem)) C.sizeof_req).2
              (Payload.data buffer) n_bits).2 ((n_bits + 7) / 8)).1.1 =
            (((n_bits + 7) / 8 : Nat) : Int)),
          proxy :=
            { p with
              m_socket := some (T.read_immediate (T.write_immediate
                (T.write_immediate s (scan_header C n_bits (some mem)) C.sizeof_req).2
                (Payload.data buffer) n_bits).2 ((n_bits + 7) / 8)).2,
              io_log := p.io_log ++
                [Io_event.write (scan_header C n_bits (some mem)) C.sizeof_req
                  (T.write_immediate s (scan_header C n_bits (some mem)) C.sizeof_req).1] ++
                [Io_event.write (Payload.data buffer) n_bits
                  (T.write_immediate
                    (T.write_immediate s (scan_header C n_bits (some mem)) C.sizeof_req).2
                    (Payload.data buffer) n_bits).1] ++
                [Io_event.read ((n_bits + 7) / 8)
                  (T.read_immediate (T.write_immediate
                    (T.write_immediate s (scan_header C n_bits (some mem)) C.sizeof_req).2
                    (Payload.data buffer) n_bits).2 ((n_bits + 7) / 8)).1.1] },
          instream := some (store_bytes (memset mem 0 ((n_bits + 7) / 8))
            ((T.read_immediate (T.write_immediate
              (T.write_immediate s (scan_header C n_bits (some mem)) C.sizeof_req).2
              (Payload.data buffer) n_bits).2 ((n_bits + 7) / 8)).1.2.take
                ((n_bits + 7) / 8))) } := by
  have hlt : ¬ n_bits ≥ 65536 := by omega
  unfold scan_header at hw1 hw2 ⊢
  unfold proxy_stream
  simp only [hs, hlt, if_false, hbuf, ne_eq, hw1, hw2, not_true_eq_false]

/-- The vector is left only by the store of line 110 on an empty vector. -/
theorem proxy_stream_buffer_none_iff (C : Proxy_consts) (outstream : Option (Nat → Nat))
    (n_bits : Nat) (last : Bool) (bit : Nat) (hn : n_bits < 65536) :
    proxy_stream_buffer C outstream n_bits last bit = none ↔ n_bits = 0 ∧ last = true := by
  constructor
  · intro h
    by_cases hc : 1 ≤ n_bits ∨ last = false
    · rw [proxy_stream_buffer_eq C outstream n_bits last bit (by omega) hc] at h
      cases h
    · constructor
      · omega
      · cases last
        · exact absurd (Or.inr rfl) hc
        · rfl
  · rintro ⟨h0, hl⟩
    subst h0; subst hl
    exact proxy_stream_buffer_zero_last C outstream bit

theorem proxy_stream_leaves_vector {σ : Type} (C : Proxy_consts) (T : Tcp_socket σ)
    (p : Jtag_proxy σ) (s : σ) (instream outstream : Option (Nat → Nat)) (n_bits : Nat)
    (last : Bool) (bit : Nat) (hs : p.m_socket = some s) (hn : n_bits < 65536)
    (hbuf : proxy_stream_buffer C outstream n_bits last bit = none) :
    proxy_stream C T p instream outstream n_bits last bit = none := by
  have hlt : ¬ n_bits ≥ 65536 := by omega
  unfold proxy_stream
  simp only [hs, hlt, if_false, hbuf]

/-- C11. A scan on a connected transport with fewer than 65536 bits reaches the header
write whenever it has a cycle or does not terminate. From there: a header write that
returns anything but the header size ends the call with failure after that one socket
call; a complete header write followed by a control-buffer write that returns anything
but `n_bits` ends the call with failure after those two socket calls, with no read; and
the call returns success only if both writes returned the full length. -/
theorem short_write_fails_the_scan {σ : Type} (C : Proxy_consts) (T : Tcp_socket σ)
    (p : Jtag_proxy σ) (s : σ) (instream outstream : Option (Nat → Nat)) (n_bits : Nat)
    (last : Bool) (bit : Nat) (hs : p.m_socket = some s) (hn : n_bits < 65536) :
    ((1 ≤ n_bits ∨ last = false) →
      ∃ buffer, proxy_stream_buffer C outstream n_bits last bit = some buffer) ∧
    (∀ buffer, proxy_stream_buffer C outstream n_bits last bit = some buffer →
      ((T.write_immediate s (scan_header C n_bits instream) C.sizeof_req).1 ≠
          (C.sizeof_req : Int) →
        ∃ res, proxy_stream C T p instream outstream n_bits last bit = some res ∧
          res.ret = false ∧
          res.proxy.io_log = p.io_log ++
            [Io_event.write (scan_header C n_bits instream) C.sizeof_req
              (T.write_immediate s (scan_header C n_bits instream) C.sizeof_req).1] ∧
          res.instream = instream) ∧
      ((T.write_immediate s (scan_header C n_bits instream) C.sizeof_req).1 =
          (C.sizeof_req : Int) →
        (T.write_immediate
          (T.write_immediate s (scan_header C n_bits instream) C.sizeof_req).2
          (Payload.data buffer) n_bits).1 ≠ (n_bits : Int) →
        ∃ res, proxy_stream C T p instream outstream n_bits last bit = some res ∧
          res.ret = false ∧
          res.proxy.io_log = p.io_log ++
            [Io_event.write (scan_header C n_bits instream) C.sizeof_req
              (T.write_immediate s (scan_header C n_bits instream) C.sizeof_req).1,
             Io_event.write (Payload.data buffer) n_bits
              (T.write_immediate
                (T.write_immediate s (scan_header C n_bits instream) C.sizeof_req).2
                (Payload.data buffer) n_bits).1] ∧
          res.instream = instream)) ∧
    (∀ res, proxy_stream C T p instream outstream n_bits last bit = some res →
      res.ret = true →
      ∃ buffer, proxy_stream_buffer C outstream n_bits last bit = some buffer ∧
        (T.write_immediate s (scan_header C n_bits instream) C.sizeof_req).1 =
          (C.sizeof_req : Int) ∧
        (T.write_immediate
          (T.write_immediate s (scan_header C n_bits instream) C.sizeof_req).2
          (Payload.data buffer) n_bits).1 = (n_bits : Int)) := by
  refine ⟨?_, ?_, ?_⟩
  · intro h
    exact ⟨_, proxy_stream_buffer_eq C outstream n_bits last bit (by omega) h⟩
  · intro buffer hbuf
    constructor
    · intro hw1
      exact ⟨_, proxy_stream_header_short C T p s instream outstream n_bits last bit buffer
        hs hn hbuf hw1, rfl, rfl, rfl⟩
    · intro hw1 hw2
      refine ⟨_, proxy_stream_data_short C T p s instream outstream n_bits last bit buffer
        hs hn hbuf hw1 hw2, rfl, ?_, rfl⟩
      simp
  · intro res hres hret
    cases hbuf : proxy_stream_buffer C outstream n_bits last bit with
    | none =>
      rw [proxy_stream_leaves_vector C T p s instream outstream n_bits last bit hs hn hbuf]
        at hres
      cases hres
    | some buffer =>
      refine ⟨buffer, rfl, ?_⟩
      by_cases hw1 : (T.write_immediate s (scan_header C n_bits instream) C.sizeof_req).1 =
          (C.sizeof_req : Int)
      · by_cases hw2 : (T.write_immediate
            (T.write_immediate s (scan_header C n_bits instream) C.sizeof_req).2
            (Payload.data buffer) n_bits).1 = (n_bits : Int)
        · exact ⟨hw1, hw2⟩
        · rw [proxy_stream_data_short C T p s instream outstream n_bits last bit buffer
            hs hn hbuf hw1 hw2] at hres
          cases hres
          cases hret
      · rw [proxy_stream_header_short C T p s instream outstream n_bits last bit buffer
          hs hn hbuf hw1] at hres
        cases hres
        cases hret

theorem short_write_fails_the_scan_witness :
    (sample_proxy (some [])).m_socket = some [] ∧ 3 < 65536 ∧
    ∃ res : Stream_result (List Nat),
      proxy_stream sample_consts short_writer (sample_proxy (some [])) (some (mem_of [9]))
        (some (mem_of [5])) 3 true 0 = some res ∧
      res.ret = false ∧
      res.proxy.io_log =
        [Io_event.write (scan_header sample_consts 3 (some (mem_of [9]))) 12 11] := by
  obtain ⟨hA, hB, _⟩ := short_write_fails_the_scan sample_consts short_writer
    (sample_proxy (some [])) [] (some (mem_of [9])) (some (mem_of [5])) 3 true 0 rfl
    (by decide)
  obtain ⟨buffer, hb⟩ := hA (Or.inl (by decide))
  obtain ⟨res, h1, h2, h3, _⟩ := (hB buffer hb).1 (by decide)
  exact ⟨rfl, by decide, res, h1, h2, h3⟩

theorem read_lengths_append (a b : List Io_event) :
    read_lengths (a ++ b) = read_lengths a ++ read_lengths b := by
  induction a with
  | nil => rfl
  | cons e rest ih =>
    cases e <;> simp [read_lengths, ih]

theorem written_payloads_append (a b : List Io_event) :
    written_payloads (a ++ b) = written_payloads a ++ written_payloads b := by
  induction a with
  | nil => rfl
  | cons e rest ih =>
    cases e <;> simp [written_payloads, ih]

/-- C12. For a scan with fewer than 65536 bits whose header write and control-buffer
write both returned the full length: with a capture buffer, the call makes exactly one
read, of `(n_bits + 7) / 8` bytes, succeeds exactly when that read returns this length,
and leaves the capture memory zero-filled over those bytes and then overwritten by the
bytes delivered, so that a byte of the window past the delivered ones is zero and memory
after the window is as before; without a capture buffer it makes no read and succeeds. -/
theorem capture_read_exact {σ : Type} (C : Proxy_consts) (T : Tcp_socket σ)
    (p : Jtag_proxy σ) (s : σ) (outstream : Option (Nat → Nat)) (n_bits : Nat)
    (last : Bool) (bit : Nat) (buffer : List Nat) (hs : p.m_socket = some s)
    (hn : n_bits < 65536)
    (hbuf : proxy_stream_buffer C outstream n_bits last bit = some buffer) :
    (∀ mem : Nat → Nat,
      (T.write_immediate s (scan_header C n_bits (some mem)) C.sizeof_req).1 =
        (C.sizeof_req : Int) →
      (T.write_immediate
        (T.write_immediate s (scan_header C n_bits (some mem)) C.sizeof_req).2
        (Payload.data buffer) n_bits).1 = (n_bits : Int) →
      ∃ (res : Stream_result σ) (ret : Int) (data : List Nat) (filled : Nat → Nat),
        proxy_stream C T p (some mem) outstream n_bits last bit = some res ∧
        (T.read_immediate (T.write_immediate
          (T.write_immediate s (scan_header C n_bits (some mem)) C.sizeof_req).2
          (Payload.data buffer) n_bits).2 ((n_bits + 7) / 8)).1 = (ret, data) ∧
        read_lengths (res.proxy.io_log.drop p.io_log.length) = [(n_bits + 7) / 8] ∧
        (res.ret = true ↔ ret = (((n_bits + 7) / 8 : Nat) : Int)) ∧
        res.instream = some filled ∧
        filled = store_bytes (memset mem 0 ((n_bits + 7) / 8))
          (data.take ((n_bits + 7) / 8)) ∧
        (∀ k, k < (n_bits + 7) / 8 → data.length ≤ k → filled k = 0) ∧
        (∀ k, (n_bits + 7) / 8 ≤ k → filled k = mem k)) ∧
    ((T.write_immediate s (scan_header C n_bits none) C.sizeof_req).1 =
        (C.sizeof_req : Int) →
      (T.write_immediate
        (T.write_immediate s (scan_header C n_bits none) C.sizeof_req).2
        (Payload.data buffer) n_bits).1 = (n_bits : Int) →
      ∃ res : Stream_result σ,
        proxy_stream C T p none outstream n_bits last bit = some res ∧
        res.ret = true ∧
        read_lengths (res.proxy.io_log.drop p.io_log.length) = [] ∧
        res.instream = none) := by
  constructor
  · intro mem hw1 hw2
    refine ⟨_, _, _, _, proxy_stream_written_capture C T p s mem outstream n_bits last bit
      buffer hs hn hbuf hw1 hw2, rfl, ?_, ?_, rfl, rfl, ?_, ?_⟩
    · simp [List.append_assoc, read_lengths]
    · simp
    · intro k hk hdata
      have hdata2 : (T.read_immediate (T.write_immediate
          (T.write_immediate s (scan_header C n_bits (some mem)) C.sizeof_req).2
          (Payload.data buffer) n_bits).2 ((n_bits + 7) / 8)).1.2.length ≤ k := hdata
      have hlen : ¬ k < (List.take ((n_bits + 7) / 8) (T.read_immediate (T.write_immediate
          (T.write_immediate s (scan_header C n_bits (some mem)) C.sizeof_req).2
          (Payload.data buffer) n_bits).2 ((n_bits + 7) / 8)).1.2).length := by
        simp only [List.length_take]
        omega
      simp only [store_bytes, dif_neg hlen, memset, if_pos hk]
    · intro k hk
      have hlen : ¬ k < (List.take ((n_bits + 7) / 8) (T.read_immediate (T.write_immediate
          (T.write_immediate s (scan_header C n_bits (some mem)) C.sizeof_req).2
          (Payload.data buffer) n_bits).2 ((n_bits + 7) / 8)).1.2).length := by
        simp only [List.length_take]
        omega
      simp only [store_bytes, dif_neg hlen, memset]
      rw [if_neg (by omega)]
  · intro hw1 hw2
    refine ⟨_, proxy_stream_written_no_capture C T p s outstream n_bits last bit
      buffer hs hn hbuf hw1 hw2, rfl, ?_, rfl⟩
    simp [List.append_assoc, read_lengths]

theorem capture_read_exact_witness :
    (sample_proxy (some [])).m_socket = some [] ∧ 3 < 65536 ∧
    proxy_stream_buffer sample_consts (some (mem_of [5])) 3 true 0 = some [5, 4, 7] ∧
    ∃ res : Stream_result (List Nat),
      proxy_stream sample_consts (loopback sample_consts) (sample_proxy (some [])) none
        (some (mem_of [5])) 3 true 0 = some res ∧
      res.ret = true ∧
      read_lengths (res.proxy.io_log.drop (sample_proxy (some [])).io_log.length) = [] ∧
      res.instream = none :=
  ⟨rfl, by decide, by decide,
    (capture_read_exact sample_consts (loopback sample_consts) (sample_proxy (some [])) []
      (some (mem_of [5])) 3 true 0 [5, 4, 7] rfl (by decide) (by decide)).2 rfl rfl⟩

/-- C14. On a connected transport `chip_reset(active)` makes exactly one socket call, the
write of a header with the chip-reset type and the given `active` flag; it writes no
control bytes and reads nothing, and it returns success exactly when that write returned
the size of the header. -/
theorem chip_reset_writes_one_header {σ : Type} (C : Proxy_consts) (T : Tcp_socket σ)
    (p : Jtag_proxy σ) (s : σ) (active : Bool) (hs : p.m_socket = some s) :
    (chip_reset C T p active).2.io_log = p.io_log ++
      [Io_event.write (Payload.header (proxy_req_t.reset C.DEBUG_BRIDGE_RESET_REQ active))
        C.sizeof_req
        (T.write_immediate s
          (Payload.header (proxy_req_t.reset C.DEBUG_BRIDGE_RESET_REQ active))
          C.sizeof_req).1] ∧
    written_payloads ((chip_reset C T p active).2.io_log.drop p.io_log.length) =
      [Payload.header (proxy_req_t.reset C.DEBUG_BRIDGE_RESET_REQ active)] ∧
    read_lengths ((chip_reset C T p active).2.io_log.drop p.io_log.length) = [] ∧
    ((chip_reset C T p active).1 = true ↔
      (T.write_immediate s
        (Payload.header (proxy_req_t.reset C.DEBUG_BRIDGE_RESET_REQ active))
        C.sizeof_req).1 = (C.sizeof_req : Int)) ∧
    (chip_reset C T p active).2.m_socket =
      some (T.write_immediate s
        (Payload.header (proxy_req_t.reset C.DEBUG_BRIDGE_RESET_REQ active))
        C.sizeof_req).2 := by
  by_cases hw : (T.write_immediate s
      (Payload.header (proxy_req_t.reset C.DEBUG_BRIDGE_RESET_REQ active)) C.sizeof_req).1 =
      (C.sizeof_req : Int)
  · simp [chip_reset, hs, hw, written_payloads, read_lengths]
  · simp [chip_reset, hs, hw, written_payloads, read_lengths]

theorem chip_reset_writes_one_header_witness :
    (sample_proxy (some [])).m_socket = some [] ∧
    (chip_reset sample_consts short_writer (sample_proxy (some [])) true).1 = false ∧
    (chip_reset sample_consts (loopback sample_consts) (sample_proxy (some [])) true).1 =
      true ∧
    (chip_reset sample_consts (loopback sample_consts) (sample_proxy (some []))
        true).2.io_log =
      [Io_event.write (Payload.header (proxy_req_t.reset 1 true)) 12 12] := by
  have h1 := chip_reset_writes_one_header sample_consts short_writer
    (sample_proxy (some [])) [] true rfl
  have h2 := chip_reset_writes_one_header sample_consts (loopback sample_consts)
    (sample_proxy (some [])) [] true rfl
  refine ⟨rfl, ?_, ?_, ?_⟩
  · cases hret : (chip_reset sample_consts short_writer (sample_proxy (some [])) true).1 with
    | false => rfl
    | true => exact absurd (h1.2.2.2.1.mp hret) (by decide)
  · exact h2.2.2.2.1.mpr rfl
  · exact h2.1

/-- C20. A call of `proxy_stream` with a capture buffer that fails before the read step
leaves the memory behind the capture pointer as it was: when no transport is stored, when
`n_bits` is 65536 or more, when the header write returns anything but the header size,
and when the control-buffer write returns anything but `n_bits`. -/
theorem capture_untouched_before_read {σ : Type} (C : Proxy_consts) (T : Tcp_socket σ)
    (p : Jtag_proxy σ) (mem : Nat → Nat) (outstream : Option (Nat → Nat)) (n_bits : Nat)
    (last : Bool) (bit : Nat) :
    (p.m_socket = none →
      ∃ res, proxy_stream C T p (some mem) outstream n_bits last bit = some res ∧
        res.ret = false ∧ res.instream = some mem) ∧
    (∀ s, p.m_socket = some s → 65536 ≤ n_bits →
      ∃ res, proxy_stream C T p (some mem) outstream n_bits last bit = some res ∧
        res.ret = false ∧ res.instream = some mem) ∧
    (∀ s buffer, p.m_socket = some s → n_bits < 65536 →
      proxy_stream_buffer C outstream n_bits last bit = some buffer →
      (T.write_immediate s (scan_header C n_bits (some mem)) C.sizeof_req).1 ≠
        (C.sizeof_req : Int) →
      ∃ res, proxy_stream C T p (some mem) outstream n_bits last bit = some res ∧
        res.ret = false ∧ res.instream = some mem) ∧
    (∀ s buffer, p.m_socket = some s → n_bits < 65536 →
      proxy_stream_buffer C outstream n_bits last bit = some buffer →
      (T.write_immediate s (scan_header C n_bits (some mem)) C.sizeof_req).1 =
        (C.sizeof_req : Int) →
      (T.write_immediate
        (T.write_immediate s (scan_header C n_bits (some mem)) C.sizeof_req).2
        (Payload.data buffer) n_bits).1 ≠ (n_bits : Int) →
      ∃ res, proxy_stream C T p (some mem) outstream n_bits last bit = some res ∧
        res.ret = false ∧ res.instream = some mem) := by
  refine ⟨?_, ?_, ?_, ?_⟩
  · intro h
    exact ⟨_, proxy_stream_not_connected C T p _ _ _ _ _ h, rfl, rfl⟩
  · intro s hs hn
    refine ⟨{ ret := false, proxy := p, instream := some mem }, ?_, rfl, rfl⟩
    unfold proxy_stream
    rw [hs]
    simp only [ge_iff_le, hn, if_true]
  · intro s buffer hs hn hbuf hw1
    exact ⟨_, proxy_stream_header_short C T p s (some mem) outstream n_bits last bit buffer
      hs hn hbuf hw1, rfl, rfl⟩
  · intro s buffer hs hn hbuf hw1 hw2
    exact ⟨_, proxy_stream_data_short C T p s (some mem) outstream n_bits last bit buffer
      hs hn hbuf hw1 hw2, rfl, rfl⟩

theorem capture_untouched_before_read_witness :
    ∃ res : Stream_result (List Nat),
      proxy_stream sample_consts short_data_writer (sample_proxy (some []))
        (some (mem_of [9])) (some (mem_of [5])) 3 true 0 = some res ∧
      res.ret = false ∧ res.instream = some (mem_of [9]) :=
  (capture_untouched_before_read sample_consts short_data_writer (sample_proxy (some []))
    (mem_of [9]) (some (mem_of [5])) 3 true 0).2.2.2 [] [5, 4, 7] rfl (by decide)
    (by decide) (by decide) (by decide)

/-- C13. On a connected transport that takes every write in full, a scan with fewer than
65536 bits that has a cycle or does not terminate writes the scan header (scan type,
`bits = n_bits`, capture flag set exactly when a capture buffer was given) and then the
`n_bits` control bytes, writes nothing else, and reads only after both writes. With
`n_bits = 0` and `last` set the call leaves the vector at line 110 and writes nothing,
header included. -/
theorem scan_wire_traffic {σ : Type} (C : Proxy_consts) (T : Tcp_socket σ)
    (p : Jtag_proxy σ) (s : σ) (instream outstream : Option (Nat → Nat)) (n_bits : Nat)
    (last : Bool) (bit : Nat) (hs : p.m_socket = some s) (hn : n_bits < 65536)
    (hw : accepts_all_writes T) :
    ((1 ≤ n_bits ∨ last = false) →
      ∃ (res : Stream_result σ) (buffer : List Nat) (reads : List Io_event),
        proxy_stream C T p instream outstream n_bits last bit = some res ∧
        proxy_stream_buffer C outstream n_bits last bit = some buffer ∧
        buffer.length = n_bits ∧
        res.proxy.io_log = p.io_log ++
          [Io_event.write
              (Payload.header (proxy_req_t.jtag C.DEBUG_BRIDGE_JTAG_REQ n_bits instream.isSome))
              C.sizeof_req C.sizeof_req,
            Io_event.write (Payload.data buffer) n_bits n_bits] ++ reads ∧
        (∀ e ∈ reads, e.is_read = true) ∧
        written_payloads (res.proxy.io_log.drop p.io_log.length) =
          [Payload.header (proxy_req_t.jtag C.DEBUG_BRIDGE_JTAG_REQ n_bits instream.isSome),
            Payload.data buffer]) ∧
    (n_bits = 0 → last = true →
      proxy_stream C T p instream outstream n_bits last bit = none) := by
  constructor
  · intro h
    have hbuf := proxy_stream_buffer_eq C outstream n_bits last bit (by omega) h
    have hw1 := hw s (scan_header C n_bits instream) C.sizeof_req
    have hw2 := hw (T.write_immediate s (scan_header C n_bits instream) C.sizeof_req).2
      (Payload.data ((List.range n_bits).map
        (fun i => control_byte_reference C outstream n_bits last bit i % 256))) n_bits
    cases instream with
    | none =>
      refine ⟨_, _, [], proxy_stream_written_no_capture C T p s outstream n_bits last bit _
        hs hn hbuf hw1 hw2, hbuf, by simp, ?_, ?_, ?_⟩
      · simp only [hw1, hw2, List.append_nil, List.append_assoc, List.singleton_append]
        rfl
      · intro e he
        cases he
      · simp only [List.append_assoc, List.drop_left, List.singleton_append]
        rfl
    | some mem =>
      refine ⟨_, _, [Io_event.read ((n_bits + 7) / 8)
          (T.read_immediate (T.write_immediate
            (T.write_immediate s (scan_header C n_bits (some mem)) C.sizeof_req).2
            (Payload.data ((List.range n_bits).map
              (fun i => control_byte_reference C outstream n_bits last bit i % 256)))
            n_bits).2 ((n_bits + 7) / 8)).1.1],
        proxy_stream_written_capture C T p s mem outstream n_bits last bit _
        hs hn hbuf hw1 hw2, hbuf, by simp, ?_, ?_, ?_⟩
      · simp only [hw1, hw2, List.append_assoc, List.singleton_append]
        rfl
      · intro e he
        simp only [List.mem_singleton] at he
        rw [he]
        rfl
      · simp only [List.append_assoc, List.drop_left, List.singleton_append]
        rfl
  · intro h0 hl
    subst h0; subst hl
    exact proxy_stream_leaves_vector C T p s instream outstream 0 true bit hs hn
      (proxy_stream_buffer_zero_last C outstream bit)

theorem scan_wire_traffic_witness :
    (sample_proxy (some [])).m_socket = some [] ∧ 0 < 65536 ∧
    accepts_all_writes (loopback sample_consts) ∧
    proxy_stream sample_consts (loopback sample_consts) (sample_proxy (some []))
      (some (mem_of [9])) (some (mem_of [5])) 0 true 0 = none := by
  have hw : accepts_all_writes (loopback sample_consts) := by
    intro s payload len
    cases payload <;> rfl
  exact ⟨rfl, by decide, hw,
    (scan_wire_traffic sample_consts (loopback sample_consts) (sample_proxy (some [])) []
      (some (mem_of [9])) (some (mem_of [5])) 0 true 0 rfl (by decide) hw).2 rfl rfl⟩

/-- C18. For fewer than 65536 bits the loop of lines 89-106 stays inside the vector and
leaves it with `n_bits` bytes; the index `n_bits-1` of line 110 is inside the vector
exactly when `n_bits` is at least 1, and the build leaves the vector exactly when
`n_bits = 0` and `last` is set, where that index is 4294967295 on an empty vector. -/
theorem tms_store_index_in_vector (C : Proxy_consts) (outstream : Option (Nat → Nat))
    (n_bits : Nat) (last : Bool) (bit : Nat) (hn : n_bits < 65536) :
    (∃ st, loop_upto C outstream bit n_bits n_bits = some st ∧ st.buffer.length = n_bits) ∧
    ((n_bits + 4294967296 - 1) % 4294967296 < n_bits ↔ 1 ≤ n_bits) ∧
    (proxy_stream_buffer C outstream n_bits last bit = none ↔ n_bits = 0 ∧ last = true) := by
  refine ⟨⟨_, loop_upto_eq C outstream bit n_bits n_bits (le_refl _), ?_⟩, ?_,
    proxy_stream_buffer_none_iff C outstream n_bits last bit hn⟩
  · simp [loop_state_after]
  · omega

theorem tms_store_index_in_vector_witness :
    0 < 65536 ∧
    ¬ ((0 + 4294967296 - 1) % 4294967296 < 0) ∧
    proxy_stream_buffer sample_consts (some (mem_of [5])) 0 true 0 = none :=
  ⟨by decide,
    fun h => absurd ((tms_store_index_in_vector sample_consts (some (mem_of [5])) 0 true 0
      (by decide)).2.1.mp h) (by decide),
    (tms_store_index_in_vector sample_consts (some (mem_of [5])) 0 true 0
      (by decide)).2.2.mpr ⟨rfl, rfl⟩⟩

/-! ## Where the drive value sits -/

/-- C15, as the code has it. In every control byte of a scan with fewer than 65536 bits
on the primary data line or on the TAP-reset line, the drive value of the cycle sits at
the bit position of the selected line: bit `bit` of byte `i` is drive bit `i`. A buffer
of `n_bits` bytes is built whenever the scan has a cycle. -/
theorem drive_value_at_selected_line (C : Proxy_consts) (outstream : Option (Nat → Nat))
    (n_bits : Nat) (last : Bool) (bit : Nat) (hC : C.lines_ok) (hn : n_bits < 65536)
    (hbit : bit = C.DEBUG_BRIDGE_JTAG_TDI ∨ bit = C.DEBUG_BRIDGE_JTAG_TRST) :
    (1 ≤ n_bits →
      ∃ buf, proxy_stream_buffer C outstream n_bits last bit = some buf ∧
        buf.length = n_bits) ∧
    (∀ buf, proxy_stream_buffer C outstream n_bits last bit = some buf →
      ∀ i, i < n_bits → (buf.getD i 0).testBit bit = decide (drive_bit outstream i = 1)) := by
  obtain ⟨hD, hM, hT, hDM, hDT, hMT⟩ := hC
  constructor
  · intro h1
    exact ⟨_, proxy_stream_buffer_eq C outstream n_bits last bit (by omega) (Or.inl h1),
      by simp⟩
  · intro buf hbuf i hi
    rw [proxy_stream_buffer_eq C outstream n_bits last bit (by omega) (Or.inl (by omega))]
      at hbuf
    cases hbuf
    have hb8 : bit < 8 := by
      rcases hbit with h | h <;> rw [h] <;> assumption
    rw [getD_map_range n_bits i _ hi, control_byte_testBit _ _ _ _ _ _ _ hb8]
    have hne : ¬ bit = C.DEBUG_BRIDGE_JTAG_TMS := by
      rcases hbit with h | h
      · rw [h]; exact hDM
      · rw [h]; exact fun e => hMT e.symm
    simp [hne]

theorem drive_value_at_selected_line_witness :
    sample_consts.lines_ok ∧ 1 < 65536 ∧
    ∀ buf, proxy_stream_buffer sample_consts (some (int_object 1)) 1 false
        sample_consts.DEBUG_BRIDGE_JTAG_TRST = some buf →
      ∀ i, i < 1 → (buf.getD i 0).testBit sample_consts.DEBUG_BRIDGE_JTAG_TRST =
        decide (drive_bit (some (int_object 1)) i = 1) :=
  ⟨by decide, by decide,
    (drive_value_at_selected_line sample_consts (some (int_object 1)) 1 false
      sample_consts.DEBUG_BRIDGE_JTAG_TRST (by decide) (by decide) (Or.inr rfl)).2⟩

/-- The control byte of `jtag_reset(false)` with the sample line positions: the drive
value is 1 and bit 0 of the byte is 0. -/
theorem drive_value_not_at_bit_zero :
    jtag_reset sample_consts (loopback sample_consts) (sample_proxy (some [])) false =
      some
        { ret := true,
          proxy :=
            { sample_proxy (some [4]) with
              io_log :=
                [Io_event.write (Payload.header (proxy_req_t.jtag 0 1 false)) 12 12,
                  Io_event.write (Payload.data [4]) 1 1] },
          instream := none } ∧
    proxy_stream_buffer sample_consts (some (int_object 1)) 1 false
      sample_consts.DEBUG_BRIDGE_JTAG_TRST = some [4] ∧
    drive_bit (some (int_object 1)) 0 = 1 ∧
    Nat.testBit 4 0 = false := by
  refine ⟨?_, by decide, by decide, by decide⟩
  have hbuf : proxy_stream_buffer sample_consts (some (int_object 1)) 1 false
      sample_consts.DEBUG_BRIDGE_JTAG_TRST = some [4] := by decide
  have h := proxy_stream_written_no_capture sample_consts (loopback sample_consts)
    (sample_proxy (some [])) [] (some (int_object 1)) 1 false
    sample_consts.DEBUG_BRIDGE_JTAG_TRST [4] rfl (by decide) hbuf rfl rfl
  exact h

/-- Whatever the line positions, as long as they are distinct bit positions of a byte,
on one of the two lines a caller can select bit 0 of a control byte differs from the drive
value. -/
theorem bit_zero_is_not_the_drive_value (C : Proxy_consts) (hC : C.lines_ok) :
    ∃ (bit : Nat) (outstream : Option (Nat → Nat)) (buf : List Nat),
      (bit = C.DEBUG_BRIDGE_JTAG_TDI ∨ bit = C.DEBUG_BRIDGE_JTAG_TRST) ∧
      proxy_stream_buffer C outstream 1 false bit = some buf ∧
      (buf.getD 0 0).testBit 0 ≠ decide (drive_bit outstream 0 = 1) := by
  obtain ⟨hD, hM, hT, hDM, hDT, hMT⟩ := hC
  have key : ∀ bit outstream, (((List.range 1).map
      (fun i => control_byte_reference C outstream 1 false bit i % 256)).getD 0 0).testBit 0 =
      (decide (0 = bit ∧ drive_bit outstream 0 = 1) ||
        decide (bit ≠ C.DEBUG_BRIDGE_JTAG_TRST ∧ 0 = C.DEBUG_BRIDGE_JTAG_TRST)) := by
    intro bit outstream
    rw [getD_map_range 1 0 _ (by norm_num), control_byte_testBit _ _ _ _ _ _ _ (by norm_num)]
    simp
  by_cases h0 : C.DEBUG_BRIDGE_JTAG_TRST = 0
  · -- the data line is not at position 0 and the forced TAP-reset bit is
    refine ⟨C.DEBUG_BRIDGE_JTAG_TDI, none, _, Or.inl rfl,
      proxy_stream_buffer_eq C none 1 false _ (by norm_num) (Or.inl (le_refl 1)), ?_⟩
    rw [key]
    have hd : ¬ (0 = C.DEBUG_BRIDGE_JTAG_TDI) := by omega
    have hd2 : ¬ (C.DEBUG_BRIDGE_JTAG_TDI = 0) := by omega
    simp [drive_bit, hd, hd2, h0, hDT]
  · -- the TAP-reset line is not at position 0
    refine ⟨C.DEBUG_BRIDGE_JTAG_TRST, some (int_object 1), _, Or.inr rfl,
      proxy_stream_buffer_eq C _ 1 false _ (by norm_num) (Or.inl (le_refl 1)), ?_⟩
    rw [key]
    have hd : ¬ (0 = C.DEBUG_BRIDGE_JTAG_TRST) := fun e => h0 e.symm
    have hdb : drive_bit (some (int_object 1)) 0 = 1 := by decide
    simp [hd, hdb]

/-! ## Connection setup -/

/-- C16, as the code has it. With a port in the configuration `connect` makes exactly one
blocking open, against that port and the configured host ("localhost" when there is
none) with the timeout 10000000, stores the result in `m_socket`, and returns true
exactly when a socket is stored on return. Without the section or without its port it
returns false, makes no open and leaves the object, `m_socket` included, as it was. -/
theorem connect_reports_blocking_open {σ : Type} (K : Tcp_client σ) (p : Jtag_proxy σ)
    (config : Config) :
    (∀ proxy_config port, config.jtag_proxy = some proxy_config →
      proxy_config.port = some port →
      (connect K p config).opened = [(proxy_config.host.getD "localhost", port, 10000000)] ∧
      (connect K p config).proxy.m_socket =
        K.connect_blocking (proxy_config.host.getD "localhost") port 10000000 ∧
      (connect K p config).proxy.m_server = proxy_config.host.getD "localhost" ∧
      (connect K p config).proxy.m_port = port ∧
      ((connect K p config).ret = true ↔ (connect K p config).proxy.m_socket.isSome = true)) ∧
    ((config.jtag_proxy = none ∨
        ∃ proxy_config, config.jtag_proxy = some proxy_config ∧ proxy_config.port = none) →
      (connect K p config).ret = false ∧ (connect K p config).opened = [] ∧
      (connect K p config).proxy = p) := by
  constructor
  · intro proxy_config port hc hp
    cases hh : proxy_config.host <;> simp [connect, hc, hp, hh]
  · intro h
    rcases h with h | ⟨proxy_config, hc, hp⟩
    · simp [connect, h]
    · simp [connect, hc, hp]

theorem connect_reports_blocking_open_witness :
    (connect sample_client (sample_proxy none)
        { jtag_proxy := some { port := some 9999, host := none } }).opened =
      [("localhost", 9999, 10000000)] ∧
    (connect sample_client (sample_proxy none)
        { jtag_proxy := some { port := some 9999, host := none } }).ret = true ∧
    (connect sample_client (sample_proxy none)
        { jtag_proxy := some { port := none, host := some "remote" } }).ret = false :=
  ⟨((connect_reports_blocking_open sample_client (sample_proxy none)
      { jtag_proxy := some { port := some 9999, host := none } }).1
        { port := some 9999, host := none } 9999 rfl rfl).1,
    ((connect_reports_blocking_open sample_client (sample_proxy none)
      { jtag_proxy := some { port := some 9999, host := none } }).1
        { port := some 9999, host := none } 9999 rfl rfl).2.2.2.2.mpr rfl,
    ((connect_reports_blocking_open sample_client (sample_proxy none)
      { jtag_proxy := some { port := none, host := some "remote" } }).2
        (Or.inr ⟨{ port := none, host := some "remote" }, rfl, rfl⟩)).1⟩

/-- On an object that already holds a socket, `connect` with a configuration that has no
"jtag-proxy" section returns false while the socket stays stored, and a scan right after
it still reaches the transport and succeeds. -/
theorem connect_false_with_socket_stored :
    (connect sample_client (sample_proxy (some [])) { jtag_proxy := none }).ret = false ∧
    (connect sample_client (sample_proxy (some []))
      { jtag_proxy := none }).proxy.m_socket = some [] ∧
    ¬ ((connect sample_client (sample_proxy (some [])) { jtag_proxy := none }).ret = true ↔
      (connect sample_client (sample_proxy (some []))
        { jtag_proxy := none }).proxy.m_socket.isSome = true) ∧
    (chip_reset sample_consts (loopback sample_consts)
      (connect sample_client (sample_proxy (some [])) { jtag_proxy := none }).proxy
      true).1 = true := by
  refine ⟨rfl, rfl, ?_, rfl⟩
  intro h
  exact absurd (h.mpr rfl) (by decide)

/-! ## One bit -/

theorem char_object_eq_mem_of (c : Nat) : char_object c = mem_of [c] := by
  funext k
  cases k with
  | zero => rfl
  | succ k => simp [char_object, mem_of, List.getD]

theorem drive_bit_char_object (c : Nat) : drive_bit (some (char_object c)) 0 = c &&& 1 := by
  simp only [drive_bit, char_object, Nat.and_one_is_mod]
  have h : (c.testBit 0) = decide (c % 2 = 1) := by
    rw [Nat.testBit_to_div_mod]; simp
  simp only [Nat.zero_div, Nat.zero_mod, if_true, h]
  by_cases hc : c % 2 = 1
  · simp [hc]
  · have : c % 2 = 0 := by omega
    simp [this]

theorem proxy_stream_over_limit {σ : Type} (C : Proxy_consts) (T : Tcp_socket σ)
    (p : Jtag_proxy σ) (s : σ) (instream outstream : Option (Nat → Nat)) (n_bits : Nat)
    (last : Bool) (bit : Nat) (hs : p.m_socket = some s) (hn : ¬ n_bits < 65536) :
    proxy_stream C T p instream outstream n_bits last bit =
      some { ret := false, proxy := p, instream := instream } := by
  have hge : n_bits ≥ 65536 := by omega
  unfold proxy_stream
  rw [hs]
  simp only [hge, if_true]

theorem read_lengths_of_proxy_stream {σ : Type} (C : Proxy_consts) (T : Tcp_socket σ)
    (p : Jtag_proxy σ) (instream outstream : Option (Nat → Nat)) (n_bits : Nat)
    (last : Bool) (bit : Nat) (res : Stream_result σ)
    (hres : proxy_stream C T p instream outstream n_bits last bit = some res) :
    read_lengths (res.proxy.io_log.drop p.io_log.length) = [] ∨
    read_lengths (res.proxy.io_log.drop p.io_log.length) = [(n_bits + 7) / 8] := by
  cases hs : p.m_socket with
  | none =>
    rw [proxy_stream_not_connected C T p _ _ _ _ _ hs] at hres
    cases hres
    left
    simp [read_lengths]
  | some s =>
    by_cases hn : n_bits < 65536
    · cases hbuf : proxy_stream_buffer C outstream n_bits last bit with
      | none =>
        rw [proxy_stream_leaves_vector C T p s _ _ _ _ _ hs hn hbuf] at hres
        cases hres
      | some buffer =>
        by_cases hw1 : (T.write_immediate s (scan_header C n_bits instream) C.sizeof_req).1 =
            (C.sizeof_req : Int)
        · by_cases hw2 : (T.write_immediate
              (T.write_immediate s (scan_header C n_bits instream) C.sizeof_req).2
              (Payload.data buffer) n_bits).1 = (n_bits : Int)
          · cases instream with
            | none =>
              rw [proxy_stream_written_no_capture C T p s outstream n_bits last bit buffer
                hs hn hbuf hw1 hw2] at hres
              cases hres
              left
              simp [List.append_assoc, read_lengths]
            | some mem =>
              rw [proxy_stream_written_capture C T p s mem outstream n_bits last bit buffer
                hs hn hbuf hw1 hw2] at hres
              cases hres
              right
              simp [List.append_assoc, read_lengths]
          · rw [proxy_stream_data_short C T p s instream outstream n_bits last bit buffer
              hs hn hbuf hw1 hw2] at hres
            cases hres
            left
            simp [List.append_assoc, read_lengths]
        · rw [proxy_stream_header_short C T p s instream outstream n_bits last bit buffer
            hs hn hbuf hw1] at hres
          cases hres
          left
          simp [read_lengths]
    · rw [proxy_stream_over_limit C T p s _ _ _ _ _ hs hn] at hres
      cases hres
      left
      simp [read_lengths]

theorem proxy_stream_returns {σ : Type} (C : Proxy_consts) (T : Tcp_socket σ)
    (p : Jtag_proxy σ) (s : σ) (instream outstream : Option (Nat → Nat)) (n_bits : Nat)
    (last : Bool) (bit : Nat) (buffer : List Nat) (hs : p.m_socket = some s)
    (hn : n_bits < 65536)
    (hbuf : proxy_stream_buffer C outstream n_bits last bit = some buffer) :
    ∃ res, proxy_stream C T p instream outstream n_bits last bit = some res := by
  by_cases hw1 : (T.write_immediate s (scan_header C n_bits instream) C.sizeof_req).1 =
      (C.sizeof_req : Int)
  · by_cases hw2 : (T.write_immediate
        (T.write_immediate s (scan_header C n_bits instream) C.sizeof_req).2
        (Payload.data buffer) n_bits).1 = (n_bits : Int)
    · cases instream with
      | none =>
        exact ⟨_, proxy_stream_written_no_capture C T p s outstream n_bits last bit buffer
          hs hn hbuf hw1 hw2⟩
      | some mem =>
        exact ⟨_, proxy_stream_written_capture C T p s mem outstream n_bits last bit buffer
          hs hn hbuf hw1 hw2⟩
    · exact ⟨_, proxy_stream_data_short C T p s instream outstream n_bits last bit buffer
        hs hn hbuf hw1 hw2⟩
  · exact ⟨_, proxy_stream_header_short C T p s instream outstream n_bits last bit buffer
      hs hn hbuf hw1⟩

/-- The outcome of a scan that reaches the transport, in one statement: the socket calls
made, the return value, the capture memory and the socket state. -/
theorem proxy_stream_outcome {σ : Type} (C : Proxy_consts) (T : Tcp_socket σ)
    (p : Jtag_proxy σ) (s : σ) (instream outstream : Option (Nat → Nat)) (n_bits : Nat)
    (last : Bool) (bit : Nat) (buffer : List Nat) (hs : p.m_socket = some s)
    (hn : n_bits < 65536)
    (hbuf : proxy_stream_buffer C outstream n_bits last bit = some buffer) :
    ∃ (res : Stream_result σ) (w1 w2 : Int × σ) (r : (Int × List Nat) × σ),
      w1 = T.write_immediate s (scan_header C n_bits instream) C.sizeof_req ∧
      w2 = T.write_immediate w1.2 (Payload.data buffer) n_bits ∧
      r = T.read_immediate w2.2 ((n_bits + 7) / 8) ∧
      proxy_stream C T p instream outstream n_bits last bit = some res ∧
      res.proxy.io_log = p.io_log ++
        (Io_event.write (scan_header C n_bits instream) C.sizeof_req w1.1 ::
          (if w1.1 = (C.sizeof_req : Int) then
            Io_event.write (Payload.data buffer) n_bits w2.1 ::
              (if w2.1 = (n_bits : Int) then
                (match instream with
                  | none => []
                  | some _ => [Io_event.read ((n_bits + 7) / 8) r.1.1])
              else [])
          else [])) ∧
      res.ret = (decide (w1.1 = (C.sizeof_req : Int)) && decide (w2.1 = (n_bits : Int)) &&
        (match instream with
          | none => true
          | some _ => decide (r.1.1 = (((n_bits + 7) / 8 : Nat) : Int)))) ∧
      res.instream =
        (if w1.1 = (C.sizeof_req : Int) ∧ w2.1 = (n_bits : Int) then
          instream.map (fun mem =>
            store_bytes (memset mem 0 ((n_bits + 7) / 8)) (r.1.2.take ((n_bits + 7) / 8)))
        else instream) ∧
      res.proxy.m_socket =
        some (if w1.1 = (C.sizeof_req : Int) then
          (if w2.1 = (n_bits : Int) then
            (match instream with
              | none => w2.2
              | some _ => r.2)
          else w2.2)
        else w1.2) := by
  by_cases hw1 : (T.write_immediate s (scan_header C n_bits instream) C.sizeof_req).1 =
      (C.sizeof_req : Int)
  · by_cases hw2 : (T.write_immediate
        (T.write_immediate s (scan_header C n_bits instream) C.sizeof_req).2
        (Payload.data buffer) n_bits).1 = (n_bits : Int)
    · cases instream with
      | none =>
        refine ⟨_, _, _, _, rfl, rfl, rfl,
          proxy_stream_written_no_capture C T p s outstream n_bits last bit buffer hs hn hbuf
            hw1 hw2, ?_, ?_, ?_, ?_⟩
        · rw [if_pos hw1, if_pos hw2]
          simp only [List.append_assoc, List.singleton_append]
        · simp only [hw1, hw2, decide_True, Bool.and_self]
        · rw [if_pos ⟨hw1, hw2⟩]
          rfl
        · rw [if_pos hw1, if_pos hw2]
      | some mem =>
        refine ⟨_, _, _, _, rfl, rfl, rfl,
          proxy_stream_written_capture C T p s mem outstream n_bits last bit buffer hs hn hbuf
            hw1 hw2, ?_, ?_, ?_, ?_⟩
        · rw [if_pos hw1, if_pos hw2]
          simp only [List.append_assoc, List.singleton_append, List.cons_append,
            List.nil_append]
        · simp only [hw1, hw2, decide_True, Bool.true_and]
        · rw [if_pos ⟨hw1, hw2⟩]
          rfl
        · rw [if_pos hw1, if_pos hw2]
    · refine ⟨_, _, _, _, rfl, rfl, rfl,
        proxy_stream_data_short C T p s instream outstream n_bits last bit buffer hs hn hbuf
          hw1 hw2, ?_, ?_, ?_, ?_⟩
      · rw [if_pos hw1, if_neg hw2]
        simp only [List.append_assoc, List.singleton_append]
      · simp only [hw1, hw2, decide_True, decide_False, Bool.true_and, Bool.false_and]
      · rw [if_neg (fun h => hw2 h.2)]
      · rw [if_pos hw1, if_neg hw2]
  · refine ⟨_, _, _, _, rfl, rfl, rfl,
      proxy_stream_header_short C T p s instream outstream n_bits last bit buffer hs hn hbuf
        hw1, ?_, ?_, ?_, ?_⟩
    · rw [if_neg hw1]
    · simp only [hw1, decide_False, Bool.false_and]
    · rw [if_neg (fun h => hw1 h.1)]
    · rw [if_neg hw1]

/-- C17. `bit_inout(inbit, outbit, last)` is `stream_inout(inbit, [outbit], 1, last)`:
same return value, same object and socket calls, same capture memory. Without a socket it
fails with no socket call. On a connected transport it writes the scan header with
`bits = 1` and the capture flag set exactly when `inbit` is given; when that write is
complete it writes the single control byte
`((outbit AND 1) << TDI) OR (1 << TRST) OR (1 << TMS if last)`, so that of `outbit` only
the least significant bit is sent; when that write is complete too and `inbit` is given
it reads one byte into the zero-filled capture byte. It makes no other socket call, and
it succeeds exactly when every call it made returned the length asked for. -/
theorem bit_inout_is_one_bit_stream {σ : Type} (C : Proxy_consts) (T : Tcp_socket σ)
    (p : Jtag_proxy σ) (inbit : Option (Nat → Nat)) (outbit : Nat) (last : Bool)
    (hC : C.lines_ok) :
    bit_inout C T p inbit outbit last =
      stream_inout C T p inbit (some (mem_of [outbit])) 1 last ∧
    proxy_stream_buffer C (some (char_object outbit)) 1 last C.DEBUG_BRIDGE_JTAG_TDI =
      some [((outbit &&& 1) <<< C.DEBUG_BRIDGE_JTAG_TDI) |||
        (1 <<< C.DEBUG_BRIDGE_JTAG_TRST) |||
        (if last = true then 1 <<< C.DEBUG_BRIDGE_JTAG_TMS else 0)] ∧
    (∃ res, bit_inout C T p inbit outbit last = some res ∧
      (read_lengths (res.proxy.io_log.drop p.io_log.length) = [] ∨
        read_lengths (res.proxy.io_log.drop p.io_log.length) = [1])) ∧
    (p.m_socket = none →
      bit_inout C T p inbit outbit last =
        some { ret := false, proxy := p, instream := inbit }) ∧
    (∀ s, p.m_socket = some s →
      ∃ (res : Stream_result σ) (b : Nat) (w1 w2 : Int × σ) (r : (Int × List Nat) × σ),
        b = (((outbit &&& 1) <<< C.DEBUG_BRIDGE_JTAG_TDI) |||
          (1 <<< C.DEBUG_BRIDGE_JTAG_TRST) |||
          (if last = true then 1 <<< C.DEBUG_BRIDGE_JTAG_TMS else 0)) ∧
        w1 = T.write_immediate s
          (Payload.header (proxy_req_t.jtag C.DEBUG_BRIDGE_JTAG_REQ 1 inbit.isSome))
          C.sizeof_req ∧
        w2 = T.write_immediate w1.2 (Payload.data [b]) 1 ∧
        r = T.read_immediate w2.2 1 ∧
        bit_inout C T p inbit outbit last = some res ∧
        res.proxy.io_log = p.io_log ++
          (Io_event.write
              (Payload.header (proxy_req_t.jtag C.DEBUG_BRIDGE_JTAG_REQ 1 inbit.isSome))
              C.sizeof_req w1.1 ::
            (if w1.1 = (C.sizeof_req : Int) then
              Io_event.write (Payload.data [b]) 1 w2.1 ::
                (if w2.1 = 1 then
                  (match inbit with
                    | none => []
                    | some _ => [Io_event.read 1 r.1.1])
                else [])
            else [])) ∧
        res.ret = (decide (w1.1 = (C.sizeof_req : Int)) && decide (w2.1 = 1) &&
          (match inbit with
            | none => true
            | some _ => decide (r.1.1 = 1))) ∧
        res.instream =
          (if w1.1 = (C.sizeof_req : Int) ∧ w2.1 = 1 then
            inbit.map (fun mem => store_bytes (memset mem 0 1) (r.1.2.take 1))
          else inbit) ∧
        res.proxy.m_socket =
          some (if w1.1 = (C.sizeof_req : Int) then
            (if w2.1 = 1 then
              (match inbit with
                | none => w2.2
                | some _ => r.2)
            else w2.2)
          else w1.2)) := by
  obtain ⟨hD, hM, hT, hDM, hDT, hMT⟩ := hC
  have hbuf := proxy_stream_buffer_reference C (some (char_object outbit)) 1 last
    C.DEBUG_BRIDGE_JTAG_TDI (by norm_num) (Or.inl (le_refl 1)) hD hT hM
  have hbyte : proxy_stream_buffer C (some (char_object outbit)) 1 last
      C.DEBUG_BRIDGE_JTAG_TDI =
      some [((outbit &&& 1) <<< C.DEBUG_BRIDGE_JTAG_TDI) |||
        (1 <<< C.DEBUG_BRIDGE_JTAG_TRST) |||
        (if last = true then 1 <<< C.DEBUG_BRIDGE_JTAG_TMS else 0)] := by
    rw [hbuf]
    have hr : List.range 1 = [0] := rfl
    simp only [hr, List.map_cons, List.map_nil, control_byte_reference,
      drive_bit_char_object, ne_eq, hDT, not_false_eq_true, if_true]
    cases last <;> simp
  refine ⟨?_, hbyte, ?_, ?_, ?_⟩
  · unfold bit_inout
    rw [char_object_eq_mem_of]
  · have hne : ∃ res, bit_inout C T p inbit outbit last = some res := by
      cases hs : p.m_socket with
      | none =>
        exact ⟨_, proxy_stream_not_connected C T p _ _ _ _ _ hs⟩
      | some s =>
        exact proxy_stream_returns C T p s inbit (some (char_object outbit)) 1 last
          C.DEBUG_BRIDGE_JTAG_TDI _ hs (by norm_num) hbuf
    obtain ⟨res, hres⟩ := hne
    refine ⟨res, hres, ?_⟩
    exact read_lengths_of_proxy_stream C T p inbit (some (char_object outbit)) 1 last
      C.DEBUG_BRIDGE_JTAG_TDI res hres
  · intro hs
    exact proxy_stream_not_connected C T p _ _ _ _ _ hs
  · intro s hs
    obtain ⟨res, w1, w2, r, e1, e2, e3, hres, hlog, hret, hin, hsock⟩ :=
      proxy_stream_outcome C T p s inbit (some (char_object outbit)) 1 last
        C.DEBUG_BRIDGE_JTAG_TDI _ hs (by norm_num) hbyte
    exact ⟨res, _, w1, w2, r, rfl, e1, e2, e3, hres, hlog, hret, hin, hsock⟩

theorem bit_inout_is_one_bit_stream_witness :
    sample_consts.lines_ok ∧ (sample_proxy (some [])).m_socket = some [] ∧
    ∃ res : Stream_result (List Nat),
      bit_inout sample_consts (loopback sample_consts) (sample_proxy (some []))
        (some (mem_of [0])) 255 true = some res ∧
      res.ret = true ∧
      res.proxy.io_log =
        [Io_event.write (Payload.header (proxy_req_t.jtag 0 1 true)) 12 12,
          Io_event.write (Payload.data [7]) 1 1,
          Io_event.read 1 1] ∧
      res.proxy.m_socket = some [7] ∧
      res.instream = some (store_bytes (memset (mem_of [0]) 0 1) [1]) := by
  obtain ⟨res, b, w1, w2, r, hb, e1, e2, e3, hres, hlog, hret, hin, hsock⟩ :=
    (bit_inout_is_one_bit_stream sample_consts (loopback sample_consts)
      (sample_proxy (some [])) (some (mem_of [0])) 255 true (by decide)).2.2.2.2 [] rfl
  have hb7 : b = 7 := by rw [hb]; decide
  subst hb7
  have h1 : w1 = ((12 : Int), []) := e1
  subst h1
  have h2 : w2 = ((1 : Int), [7]) := e2
  subst h2
  have h3 : r = (((1 : Int), [1]), [7]) := by rw [e3]; decide
  subst h3
  exact ⟨by decide, rfl, res, hres, hret, hlog, hsock, hin⟩

/-! ## What the control buffer depends on -/

theorem loop_reads_succ (C : Proxy_consts) (outstream : Option (Nat → Nat))
    (bit n_bits k : Nat) (hk : k < n_bits) :
    loop_reads C outstream bit n_bits (k + 1) =
      loop_reads C outstream bit n_bits k ++
        (if k % 8 = 0 then
          (match outstream with
            | some _ => [k / 8]
            | none => [])
        else []) := by
  unfold loop_reads
  rw [List.range_succ, List.filterMap_append]
  congr 1
  rw [List.filterMap_cons, List.filterMap_nil, loop_upto_eq C outstream bit n_bits k (by omega)]
  simp only [Option.some_bind, loop_read_offset]
  by_cases h0 : k % 8 = 0
  · cases outstream with
    | none => simp [h0]
    | some mem =>
      have e : (k + 7) / 8 = k / 8 := by omega
      simp [h0, loop_state_after, e]
  · simp [h0]

theorem loop_reads_some (C : Proxy_consts) (mem : Nat → Nat) (bit n_bits : Nat) :
    ∀ k, k ≤ n_bits → loop_reads C (some mem) bit n_bits k = List.range ((k + 7) / 8) := by
  intro k
  induction k with
  | zero => intro _; rfl
  | succ k ih =>
    intro hk
    rw [loop_reads_succ C (some mem) bit n_bits k (by omega), ih (by omega)]
    by_cases h0 : k % 8 = 0
    · have e1 : (k + 1 + 7) / 8 = (k + 7) / 8 + 1 := by omega
      have e2 : k / 8 = (k + 7) / 8 := by omega
      simp only [h0, if_true, e1, e2, List.range_succ]
    · have e1 : (k + 1 + 7) / 8 = (k + 7) / 8 := by omega
      simp only [h0, if_false, e1, List.append_nil]

theorem loop_reads_none (C : Proxy_consts) (bit n_bits : Nat) :
    ∀ k, k ≤ n_bits → loop_reads C none bit n_bits k = [] := by
  intro k
  induction k with
  | zero => intro _; rfl
  | succ k ih =>
    intro hk
    rw [loop_reads_succ C none bit n_bits k (by omega), ih (by omega)]
    by_cases h0 : k % 8 = 0 <;> simp [h0]

theorem proxy_stream_buffer_congr (C : Proxy_consts) (out1 out2 : Option (Nat → Nat))
    (n_bits : Nat) (last : Bool) (bit : Nat) (hn : n_bits < 65536)
    (h : ∀ i, i < n_bits → drive_bit out1 i = drive_bit out2 i) :
    proxy_stream_buffer C out1 n_bits last bit = proxy_stream_buffer C out2 n_bits last bit := by
  by_cases hc : 1 ≤ n_bits ∨ last = false
  · rw [proxy_stream_buffer_eq C out1 n_bits last bit (by omega) hc,
      proxy_stream_buffer_eq C out2 n_bits last bit (by omega) hc]
    refine congrArg some ?_
    apply List.map_congr_left
    intro i hi
    simp only [control_byte_reference, h i (List.mem_range.mp hi)]
  · have h0 : n_bits = 0 := by omega
    have hl : last = true := by
      cases last
      · exact absurd (Or.inr rfl) hc
      · rfl
    subst h0; subst hl
    rw [proxy_stream_buffer_zero_last, proxy_stream_buffer_zero_last]

/-- C19. For fewer than 65536 bits the loop reads the drive buffer at the offsets
`0 .. (n_bits+7)/8 - 1`, once each and in this order, and at no other offset; with a null
drive pointer, and with `n_bits = 0`, it reads none. Two drive buffers with the same
first `n_bits` bits, counted from the least significant bit of each byte, in particular
two that agree on their first `(n_bits+7)/8` bytes, give the same control buffer and the
same outcome of `proxy_stream`: the same socket calls, header included (it is built from
`n_bits` and the capture pointer alone), the same return value and capture memory. -/
theorem control_buffer_depends_on_first_bits {σ : Type} (C : Proxy_consts)
    (T : Tcp_socket σ) (p : Jtag_proxy σ) (instream : Option (Nat → Nat)) (n_bits : Nat)
    (last : Bool) (bit : Nat) (hn : n_bits < 65536) :
    (∀ mem, loop_reads C (some mem) bit n_bits n_bits = List.range ((n_bits + 7) / 8)) ∧
    loop_reads C none bit n_bits n_bits = [] ∧
    (∀ mem, n_bits = 0 → loop_reads C (some mem) bit n_bits n_bits = []) ∧
    (∀ out1 out2 : Option (Nat → Nat),
      (∀ i, i < n_bits → drive_bit out1 i = drive_bit out2 i) →
      proxy_stream_buffer C out1 n_bits last bit = proxy_stream_buffer C out2 n_bits last bit ∧
      proxy_stream C T p instream out1 n_bits last bit =
        proxy_stream C T p instream out2 n_bits last bit) ∧
    (∀ mem1 mem2 : Nat → Nat,
      (∀ k, k < (n_bits + 7) / 8 → mem1 k = mem2 k) →
      proxy_stream C T p instream (some mem1) n_bits last bit =
        proxy_stream C T p instream (some mem2) n_bits last bit) := by
  have hstream : ∀ out1 out2 : Option (Nat → Nat),
      (∀ i, i < n_bits → drive_bit out1 i = drive_bit out2 i) →
      proxy_stream C T p instream out1 n_bits last bit =
        proxy_stream C T p instream out2 n_bits last bit := by
    intro out1 out2 h
    have hb := proxy_stream_buffer_congr C out1 out2 n_bits last bit hn h
    unfold proxy_stream
    rw [hb]
  refine ⟨fun mem => loop_reads_some C mem bit n_bits n_bits (le_refl _),
    loop_reads_none C bit n_bits n_bits (le_refl _), ?_, ?_, ?_⟩
  · intro mem h0
    subst h0
    rfl
  · intro out1 out2 h
    exact ⟨proxy_stream_buffer_congr C out1 out2 n_bits last bit hn h, hstream out1 out2 h⟩
  · intro mem1 mem2 h
    apply hstream
    intro i hi
    have hk : i / 8 < (n_bits + 7) / 8 := by omega
    simp only [drive_bit, h (i / 8) hk]

theorem control_buffer_depends_on_first_bits_witness :
    3 < 65536 ∧
    loop_reads sample_consts (some (mem_of [5, 77])) 0 3 3 = List.range ((3 + 7) / 8) ∧
    proxy_stream sample_consts (loopback sample_consts) (sample_proxy (some []))
        (some (mem_of [0])) (some (mem_of [5, 77])) 3 true 0 =
      proxy_stream sample_consts (loopback sample_consts) (sample_proxy (some []))
        (some (mem_of [0])) (some (mem_of [5])) 3 true 0 :=
  ⟨by decide,
    (control_buffer_depends_on_first_bits sample_consts (loopback sample_consts)
      (sample_proxy (some [])) (some (mem_of [0])) 3 true 0 (by decide)).1 (mem_of [5, 77]),
    (control_buffer_depends_on_first_bits sample_consts (loopback sample_consts)
      (sample_proxy (some [])) (some (mem_of [0])) 3 true 0 (by decide)).2.2.2.2
      (mem_of [5, 77]) (mem_of [5]) (by
        intro k hk
        have h0 : k = 0 := by omega
        subst h0
        rfl)⟩

end JtagProxy
